import Mathlib

/-!
Verification development for the `doomscroller_gemini` repository's agent
tool-execution core (`ai_agent_tools.py`): the `AnalysisTools` data-query
engine and the `AIAgent` tool-calling loop.

Modelling conventions (shallow embedding):
* Python/JSON values are the `Json` inductive below.  Python numbers
  (`int`/`float`) are idealized as exact rationals `ℚ`; Python `bool` is a
  separate constructor but participates in numeric contexts (as in Python,
  where `bool` is an `int` subclass and `isinstance(True, int)` holds).
* Python dictionaries are insertion-ordered association lists.
* Exceptions are modelled with `Except String`; a `try/except Exception`
  block in the source becomes a `match` on the `Except` value.
* The filesystem (`Path.exists`, `open`/`read`, `glob`, `stat`) and the
  standard-library JSON parser `json.loads`/`json.load` are external to the
  repository; they appear as explicit parameters (`FS`, `jloads`), so every
  theorem quantifies over their behaviour.
* The Gemini transport (`model.generate_content(...).text`) is external; it
  is modelled as a function from the invocation index to either a response
  text or a raised transport error.
-/

inductive Json where
  | null : Json
  | bool (b : Bool) : Json
  | num (q : ℚ) : Json
  | str (s : String) : Json
  | arr (xs : List Json) : Json
  | obj (kvs : List (String × Json)) : Json

namespace Json

theorem sizeOf_lt_of_mem_arr {x : Json} {xs : List Json} (h : x ∈ xs) :
    sizeOf x < sizeOf (Json.arr xs) := by
  have := List.sizeOf_lt_of_mem h
  simp only [Json.arr.sizeOf_spec]
  omega

theorem sizeOf_lt_of_mem_obj {k : String} {v : Json} {kvs : List (String × Json)}
    (h : (k, v) ∈ kvs) : sizeOf v < sizeOf (Json.obj kvs) := by
  have := List.sizeOf_lt_of_mem h
  have h2 : sizeOf (k, v) = 1 + sizeOf k + sizeOf v := rfl
  simp only [Json.obj.sizeOf_spec]
  omega

theorem sizeOf_snd_lt_of_mem_obj {kv : String × Json} {kvs : List (String × Json)}
    (h : kv ∈ kvs) : sizeOf kv.2 < sizeOf (Json.obj kvs) :=
  sizeOf_lt_of_mem_obj (k := kv.1) (v := kv.2) (by simpa using h)

/-- Structural induction principle for the nested inductive `Json`. -/
theorem recOn_mem {P : Json → Prop}
    (hnull : P .null) (hbool : ∀ b, P (.bool b)) (hnum : ∀ q, P (.num q))
    (hstr : ∀ s, P (.str s))
    (harr : ∀ xs, (∀ x ∈ xs, P x) → P (.arr xs))
    (hobj : ∀ kvs, (∀ kv ∈ kvs, P kv.2) → P (.obj kvs)) :
    ∀ j, P j := by
  have H : ∀ n j, sizeOf j ≤ n → P j := by
    intro n
    induction n with
    | zero =>
      intro j h
      exact absurd h (by cases j <;> simp)
    | succ n ih =>
      intro j h
      match j with
      | .null => exact hnull
      | .bool b => exact hbool b
      | .num q => exact hnum q
      | .str s => exact hstr s
      | .arr xs =>
        refine harr xs (fun x hx => ih x ?_)
        have := Json.sizeOf_lt_of_mem_arr hx
        omega
      | .obj kvs =>
        refine hobj kvs (fun kv hkv => ih kv.2 ?_)
        have := Json.sizeOf_snd_lt_of_mem_obj hkv
        omega
  exact fun j => H (sizeOf j) j le_rfl

end Json

/-- Dictionary lookup (`d[k]` / `k in d` / `d.get(k)`); Python dictionaries
cannot hold duplicate keys, so first-match lookup is faithful. -/
def jlookup (k : String) : List (String × Json) → Option Json
  | [] => none
  | (k', v) :: rest => if k' = k then some v else jlookup k rest

/-- `d.get(k, default)`. -/
def jget (k : String) (kvs : List (String × Json)) (dflt : Json) : Json :=
  (jlookup k kvs).getD dflt

/-- `k in d` for a result mapping (`none` for non-mappings). -/
def hasKey (k : String) : Json → Bool
  | .obj kvs => (jlookup k kvs).isSome
  | _ => false

/-- Python truthiness (`bool(x)`) over the JSON value space. -/
def pyTruthy : Json → Bool
  | .null => false
  | .bool b => b
  | .num q => q ≠ 0
  | .str s => s ≠ ""
  | .arr xs => !xs.isEmpty
  | .obj kvs => !kvs.isEmpty

/-- Numeric view used by Python's cross-type numeric equality and by
`isinstance(v, (int, float))` (which accepts `bool`, an `int` subclass). -/
def toNumQ : Json → Option ℚ
  | .bool b => some (if b then 1 else 0)
  | .num q => some q
  | _ => none

/-- `isinstance(v, (int, float))` — true for numbers and booleans. -/
def pyIsNum (j : Json) : Bool := (toNumQ j).isSome

mutual
/-- Python `==` over the JSON value space: numeric cross-type equality
(`True == 1 == 1.0`), element-wise list equality, order-insensitive dict
equality. -/
def pyEq : Json → Json → Bool
  | .null, .null => true
  | .str a, .str b => a = b
  | .arr a, .arr b => pyEqList a b
  | .obj a, .obj b => a.length = b.length && pyEqObj a b
  | a, b =>
    match toNumQ a, toNumQ b with
    | some qa, some qb => qa = qb
    | _, _ => false

def pyEqList : List Json → List Json → Bool
  | [], [] => true
  | a :: as', b :: bs => pyEq a b && pyEqList as' bs
  | _, _ => false

def pyEqObj : List (String × Json) → List (String × Json) → Bool
  | [], _ => true
  | (k, v) :: rest, kvs2 =>
    (match jlookup k kvs2 with
     | some w => pyEq v w
     | none => false) && pyEqObj rest kvs2
end

/-- Non-overlapping substring containment: Python's `needle in hay` for
strings (empty needle is contained in everything). -/
def isSubChars (nd : List Char) : List Char → Bool
  | [] => nd.isEmpty
  | c :: rest => nd.isPrefixOf (c :: rest) || isSubChars nd rest

def strContains (hay nd : String) : Bool := isSubChars nd.data hay.data

/-- Python `hay.count(nd)`: non-overlapping occurrences, scanning left to
right; `hay.count("")` is `len(hay) + 1`. -/
def countOccAux (nd : List Char) (hnd : nd ≠ []) : List Char → Nat
  | [] => 0
  | c :: rest =>
    if nd.isPrefixOf (c :: rest) then
      1 + countOccAux nd hnd ((c :: rest).drop nd.length)
    else
      countOccAux nd hnd rest
termination_by l => l.length
decreasing_by
  · simp only [List.length_drop, List.length_cons]
    have : 1 ≤ nd.length := List.length_pos.mpr hnd
    omega
  · simp

def strCount (hay nd : String) : Nat :=
  if h : nd.data = [] then hay.length + 1
  else countOccAux nd.data h hay.data

def isPyWs (c : Char) : Bool := c = ' ' || c = '\t' || c = '\n' || c = '\r' || c = '\x0b' || c = '\x0c'

/-- Trim leading and trailing whitespace. -/
def trimChars (l : List Char) : List Char :=
  ((l.dropWhile isPyWs).reverse.dropWhile isPyWs).reverse

/-- Python's `str.strip()` (ASCII-whitespace idealization). -/
def pyStrip (s : String) : String := String.mk (trimChars s.data)

/-- The remainder after the leftmost occurrence of a literal token. -/
def dropThroughTok (tok : List Char) : List Char → Option (List Char)
  | [] => none
  | c :: rest =>
    if tok.isPrefixOf (c :: rest) then some ((c :: rest).drop tok.length)
    else dropThroughTok tok rest

/-- The segment before the leftmost occurrence of a literal token. -/
def takeUntilTok (tok : List Char) : List Char → Option (List Char)
  | [] => none
  | c :: rest =>
    if tok.isPrefixOf (c :: rest) then some []
    else (takeUntilTok tok rest).map (c :: ·)

/-- Python's `str.lower()` (ASCII idealization). -/
def pyLower (s : String) : String := String.mk (s.data.map Char.toLower)

/-- Decimal-ish rendering of the idealized number type (`repr` of Python
ints; float rendering is idealized). -/
def numRepr (q : ℚ) : String :=
  if q.den = 1 then toString q.num else toString q.num ++ "/" ++ toString q.den

mutual
/-- Python `repr` over the JSON value space (string escaping idealized). -/
def pyRepr : Json → String
  | .null => "None"
  | .bool true => "True"
  | .bool false => "False"
  | .num q => numRepr q
  | .str s => "'" ++ s ++ "'"
  | .arr xs => "[" ++ pyReprList xs ++ "]"
  | .obj kvs => "\x7b" ++ pyReprObj kvs ++ "\x7d"

def pyReprList : List Json → String
  | [] => ""
  | [x] => pyRepr x
  | x :: rest => pyRepr x ++ ", " ++ pyReprList rest

def pyReprObj : List (String × Json) → String
  | [] => ""
  | [(k, v)] => "'" ++ k ++ "': " ++ pyRepr v
  | (k, v) :: rest => "'" ++ k ++ "': " ++ pyRepr v ++ ", " ++ pyReprObj rest
end

/-- Python `str(x)` (`f"{x}"`). -/
def pyStr : Json → String
  | .str s => s
  | j => pyRepr j

/-- `type(x).__name__` (`int` vs `float` idealized by denominator). -/
def pyTypeName : Json → String
  | .null => "NoneType"
  | .bool _ => "bool"
  | .num q => if q.den = 1 then "int" else "float"
  | .str _ => "str"
  | .arr _ => "list"
  | .obj _ => "dict"

/-- `str(x)[:n] if len(str(x)) > n else str(x)` — equal to a plain take. -/
def pyStrTrunc (j : Json) (n : Nat) : String := (pyStr j).take n

mutual
/-- Python `<` restricted to the value shapes that can appear here: numeric
(including `bool`) comparison, lexicographic string comparison, element-wise
list comparison; everything else raises `TypeError`. -/
def pyLt : Json → Json → Except String Bool
  | .str a, .str b => .ok (decide (a < b))
  | .arr a, .arr b => pyLtList a b
  | a, b =>
    match toNumQ a, toNumQ b with
    | some qa, some qb => .ok (decide (qa < qb))
    | _, _ => .error ("'<' not supported between instances of '" ++
        pyTypeName a ++ "' and '" ++ pyTypeName b ++ "'")

/-- Element-wise (lexicographic) comparison of Python lists. -/
def pyLtList : List Json → List Json → Except String Bool
  | [], [] => .ok false
  | [], _ :: _ => .ok true
  | _ :: _, [] => .ok false
  | a :: as', b :: bs =>
    if pyEq a b then pyLtList as' bs
    else pyLt a b
end

/-- Python `>` / `>=` / `<=` via `<` (these types are totally ordered where
comparable at all, and raise identically where not). -/
def pyGt (a b : Json) : Except String Bool := pyLt b a

def pyGe (a b : Json) : Except String Bool := (pyLt a b).map Bool.not

def pyLe (a b : Json) : Except String Bool := (pyLt b a).map Bool.not

/-- Python `x in container`. -/
def pyIn (x container : Json) : Except String Bool :=
  match container with
  | .arr xs => .ok (xs.any (pyEq x))
  | .str hay =>
    match x with
    | .str nd => .ok (strContains hay nd)
    | _ => .error ("'in <string>' requires string as left operand, not " ++ pyTypeName x)
  | .obj kvs => .ok (kvs.any (fun kv => pyEq x (.str kv.1)))
  | c => .error ("argument of type '" ++ pyTypeName c ++ "' is not iterable")

/-- Python `+`. -/
def pyAdd (a b : Json) : Except String Json :=
  match a, b with
  | .str x, .str y => .ok (.str (x ++ y))
  | .arr x, .arr y => .ok (.arr (x ++ y))
  | a', b' =>
    match toNumQ a', toNumQ b' with
    | some qa, some qb => .ok (.num (qa + qb))
    | _, _ => .error ("unsupported operand type(s) for +: '" ++ pyTypeName a' ++
        "' and '" ++ pyTypeName b' ++ "'")

/-- `x.get(...)` — raises `AttributeError` on non-dicts. -/
def pyGet (j : Json) (k : String) (dflt : Json) : Except String Json :=
  match j with
  | .obj kvs => .ok (jget k kvs dflt)
  | _ => .error ("'" ++ pyTypeName j ++ "' object has no attribute 'get'")

/-- `x.lower()` — raises `AttributeError` on non-strings. -/
def pyLowerE (j : Json) : Except String String :=
  match j with
  | .str s => .ok (pyLower s)
  | _ => .error ("'" ++ pyTypeName j ++ "' object has no attribute 'lower'")

/-- `for x in j` — the sequence of iterates, raising on non-iterables. -/
def jIterE (j : Json) : Except String (List Json) :=
  match j with
  | .arr xs => .ok xs
  | .str s => .ok (s.data.map (fun c => .str (String.mk [c])))
  | .obj kvs => .ok (kvs.map (fun kv => .str kv.1))
  | _ => .error ("'" ++ pyTypeName j ++ "' object is not iterable")

/-- `x[:n]` on strings and lists, raising elsewhere. -/
def pySliceTake (j : Json) (n : Nat) : Except String Json :=
  match j with
  | .str s => .ok (.str (s.take n))
  | .arr xs => .ok (.arr (xs.take n))
  | _ => .error ("'" ++ pyTypeName j ++ "' object is not subscriptable")

/-- A Python slice bound: must be an `int` (or `bool`); floats raise. -/
def asSliceIdx (j : Json) : Except String Int :=
  match j with
  | .bool b => .ok (if b then 1 else 0)
  | .num q => if q.den = 1 then .ok q.num else .error "slice indices must be integers or None or have an __index__ method"
  | _ => .error "slice indices must be integers or None or have an __index__ method"

/-- `l[:n]` with Python's negative-index semantics. -/
def pySliceToIdx (l : List Json) (n : Int) : List Json :=
  if 0 ≤ n then l.take n.toNat else l.take (l.length - (-n).toNat)

/-- A value usable as a filesystem path (`Path(x)`); non-strings raise. -/
def asPathStr (j : Json) : Except String String :=
  match j with
  | .str s => .ok s
  | _ => .error ("argument should be a str or an os.PathLike object where __fspath__ returns a str, not <class '" ++ pyTypeName j ++ "'>")

/-- `Path(dir) / name` (`Path(".") / f` stringifies to `f`). -/
def pathJoin (dir f : String) : String := if dir = "." then f else dir ++ "/" ++ f

/-- Hashability of a JSON value (lists and dicts are unhashable). -/
def isHashable : Json → Bool
  | .arr _ => false
  | .obj _ => false
  | _ => true

/-- Increment the count of the first `pyEq`-equal representative, else append
a fresh entry (insertion-ordered, as `collections.Counter` over a `dict`). -/
def bumpCount (v : Json) : List (Json × Nat) → List (Json × Nat)
  | [] => [(v, 1)]
  | (w, c) :: rest => if pyEq w v then (w, c + 1) :: rest else (w, c) :: bumpCount v rest

/-- `collections.Counter(values)`: raises `TypeError` at the first unhashable
value, otherwise groups by Python equality in insertion order. -/
def countInto (acc : List (Json × Nat)) : List Json → Except String (List (Json × Nat))
  | [] => .ok acc
  | v :: rest =>
    if isHashable v then countInto (bumpCount v acc) rest
    else .error ("unhashable type: '" ++ pyTypeName v ++ "'")

def countByValue (values : List Json) : Except String (List (Json × Nat)) :=
  countInto [] values

/-- `\w` (ASCII idealization). -/
def isWordChar (c : Char) : Bool := c.isAlphanum || c = '_'

/-- `re.findall(r'#(\w+)', s)`: non-overlapping, left to right. -/
def findTagsAux : List Char → List String
  | [] => []
  | c :: rest =>
    if c = '#' then
      let tag := rest.takeWhile isWordChar
      if tag.isEmpty then findTagsAux rest
      else String.mk tag :: findTagsAux (rest.dropWhile isWordChar)
    else findTagsAux rest
termination_by l => l.length
decreasing_by
  · simp
  · have : (rest.dropWhile isWordChar).length ≤ rest.length :=
      (List.dropWhile_sublist (p := isWordChar) (l := rest)).length_le
    simp only [List.length_cons]
    omega
  · simp

def findTags (s : String) : List String := findTagsAux s.data

/-- Errors raised by `open(...)`/`f.read()`, distinguished the way
`read_json_file`'s `except` clauses distinguish them. -/
inductive ReadErr where
  | unicode (msg : String) : ReadErr
  | perm (msg : String) : ReadErr
  | other (msg : String) : ReadErr

/-- `str(e)` of a read error, for the operations that catch generically. -/
def ReadErr.msg : ReadErr → String
  | .unicode m => m
  | .perm m => m
  | .other m => m

/-- Metadata `list_json_files` reads via `glob`/`stat`. -/
structure FileMeta where
  name : String
  path : String
  size : Nat
  modified : String

/-- The external filesystem, as the engine observes it. -/
structure FS where
  pathExists : String → Bool
  readFile : String → Except ReadErr String
  globJson : String → List FileMeta
  statSize : String → Nat

/-- The standard library's `json.loads` / `json.load` (external): `none`
models a raised `JSONDecodeError`. -/
abbrev JLoads := String → Option Json

/-- Stand-in for the message of a raised `json.JSONDecodeError`. -/
def jsonDecodeErrMsg : String := "Expecting value: line 1 column 1 (char 0)"

def isPyWhitespace (c : Char) : Bool := c = ' ' || c = '\t' || c = '\n' || c = '\r' || c = '\x0b' || c = '\x0c'

/-- `re.sub(tok + r'\s*', '', s)` for a literal token `tok`: delete every
occurrence of the token together with the whitespace run following it. -/
def removeTokWsAux (tok : List Char) (htok : tok ≠ []) : List Char → List Char
  | [] => []
  | c :: rest =>
    if tok.isPrefixOf (c :: rest) then
      removeTokWsAux tok htok (((c :: rest).drop tok.length).dropWhile isPyWhitespace)
    else
      c :: removeTokWsAux tok htok rest
termination_by l => l.length
decreasing_by
  · have h1 : (((c :: rest).drop tok.length).dropWhile isPyWhitespace).length ≤
        ((c :: rest).drop tok.length).length :=
      (List.dropWhile_sublist (p := isPyWhitespace)).length_le
    have : 1 ≤ tok.length := List.length_pos.mpr htok
    simp only [List.length_drop, List.length_cons] at h1 ⊢
    omega
  · simp

def removeTokWs (tok : String) (h : tok.data ≠ []) (s : List Char) : List Char :=
  removeTokWsAux tok.data h s

/-- `re.sub(r',\s*' + close, close, s)` for a literal closing bracket:
drop a comma standing (up to whitespace) before `close`. -/
def commaFix (close : Char) : List Char → List Char
  | [] => []
  | c :: rest =>
    if c = ',' then
      let r := rest.dropWhile isPyWhitespace
      match hr : r with
      | c' :: r' =>
        if c' = close then close :: commaFix close r'
        else ',' :: commaFix close rest
      | [] => ',' :: commaFix close rest
    else c :: commaFix close rest
termination_by l => l.length
decreasing_by
  all_goals simp only [List.length_cons]
  all_goals try omega
  all_goals
    (have h1 : (rest.dropWhile isPyWhitespace).length ≤ rest.length :=
      (List.dropWhile_sublist (p := isPyWhitespace) (l := rest)).length_le)
  all_goals rw [show List.dropWhile isPyWhitespace rest = c' :: r' from hr] at h1
  all_goals simp only [List.length_cons] at h1
  all_goals omega

/-- `re.search(r'\{.*\}', s, re.DOTALL)` (greedy): the span from the first
`{` to the last `}`, when that span exists. -/
def extractBraces (l : List Char) : Option (List Char) :=
  match l.dropWhile (· ≠ '{') with
  | [] => none
  | c :: rest =>
    match (c :: rest).reverse.dropWhile (· ≠ '}') with
    | [] => none
    | rev => some rev.reverse

/-- The clean-up pass `safe_json_loads` applies between parse attempts. -/
def jsonFixups (s : List Char) : List Char :=
  let a := removeTokWs "```json" (by decide) s
  let b := removeTokWs "```" (by decide) a
  let c := commaFix '}' b
  let d := commaFix ']' c
  match extractBraces d with
  | some m => m
  | none => d

/-- `safe_json_loads(json_string, max_retries=3)`: parse, and on failure
retry after the clean-up pass, at most three attempts in all. -/
def safe_json_loads (jloads : JLoads) (s : String) : Option Json :=
  match jloads s with
  | some d => some d
  | none =>
    let s1 := String.mk (jsonFixups s.data)
    match jloads s1 with
    | some d => some d
    | none =>
      let s2 := String.mk (jsonFixups s1.data)
      jloads s2

/-- `{"error": msg}`. -/
def errObj (msg : String) : Json := .obj [("error", .str msg)]

namespace AnalysisTools

/-- `keyword_str = keyword if case_sensitive else keyword.lower()` — the
first use of a non-string keyword raises (`.lower()` when insensitive, the
`in` test when sensitive). -/
def kwAsStr (cs : Bool) (k : Json) : Except String String :=
  match k with
  | .str s => .ok (if cs then s else pyLower s)
  | _ =>
    if cs then .error ("'in <string>' requires string as left operand, not " ++ pyTypeName k)
    else .error ("'" ++ pyTypeName k ++ "' object has no attribute 'lower'")

/-- The `# Check key` loop of `keyword_search.search_recursive`. -/
def kwKeyRecs (cs : Bool) (path key : String) (value : Json) :
    List Json → Except String (List Json)
  | [] => .ok []
  | k :: rest => do
    let kstr ← kwAsStr cs k
    let searchIn := if cs then key else pyLower key
    let tail ← kwKeyRecs cs path key value rest
    pure ((if strContains searchIn kstr then
      [Json.obj [("path", .str path), ("keyword", k), ("found_in", .str "key"),
        ("key", .str key), ("value", .str (pyStrTrunc value 200))]]
      else []) ++ tail)

/-- The string-value keyword loop of `search_recursive` (`key?` is present
for the dict-value case and absent for the bare-string case). -/
def kwStrRecs (cs : Bool) (path : String) (key? : Option String) (s : String) :
    List Json → Except String (List Json)
  | [] => .ok []
  | k :: rest => do
    let kstr ← kwAsStr cs k
    let searchIn := if cs then s else pyLower s
    let tail ← kwStrRecs cs path key? s rest
    pure ((if strContains searchIn kstr then
      [Json.obj ((("path", Json.str path) :: ("keyword", k) :: ("found_in", Json.str "value") ::
        (match key? with | some key => [("key", Json.str key)] | none => [])) ++
        [("value", .str (s.take 200)), ("match_count", .num (strCount searchIn kstr))])]
      else []) ++ tail)

mutual
/-- `keyword_search.search_recursive`. -/
def searchRec (ks : Json) (cs : Bool) : Json → String → Except String (List Json)
  | .obj kvs, path => searchKVs ks cs kvs path
  | .arr xs, path => searchList ks cs xs path 0
  | .str s, path => do
    let el ← jIterE ks
    kwStrRecs cs path none s el
  | _, _ => .ok []

def searchKVs (ks : Json) (cs : Bool) : List (String × Json) → String → Except String (List Json)
  | [], _ => .ok []
  | (k, v) :: rest, path => do
    let cur := path ++ "." ++ k
    let el ← jIterE ks
    let keyRecs ← kwKeyRecs cs cur k v el
    let valRecs ←
      match v with
      | .str s => do
        let el2 ← jIterE ks
        kwStrRecs cs cur (some k) s el2
      | w => searchRec ks cs w cur
    let tail ← searchKVs ks cs rest path
    pure (keyRecs ++ valRecs ++ tail)

def searchList (ks : Json) (cs : Bool) : List Json → String → Nat → Except String (List Json)
  | [], _, _ => .ok []
  | x :: rest, path, i => do
    let head ← searchRec ks cs x (path ++ "[" ++ toString i ++ "]")
    let tail ← searchList ks cs rest path (i + 1)
    pure (head ++ tail)
end

/-- `AnalysisTools.keyword_search(data, keywords, case_sensitive=False)`. -/
def keyword_search (data keywords : Json) (case_sensitive : Json := .bool false) : Json :=
  let ks : Json := match keywords with
    | .str s => .arr [.str s]
    | k => k
  match searchRec ks (pyTruthy case_sensitive) data "root" with
  | .ok results => .obj [("success", .bool true), ("keywords", ks),
      ("total_matches", .num results.length), ("matches", .arr results)]
  | .error e => errObj e

/-- The operator-mapping arm of `filter_json.check_filters` (`$gt`, `$lt`,
`$gte`, `$lte`, `$eq`, `$ne`, `$in`, `$contains`), checked in source order
with early `False` exits. -/
def checkOps (opKvs : List (String × Json)) (v : Json) : Except String Bool := do
  if let some g := jlookup "$gt" opKvs then
    if !(← pyGt v g) then return false
  if let some l := jlookup "$lt" opKvs then
    if !(← pyLt v l) then return false
  if let some g := jlookup "$gte" opKvs then
    if !(← pyGe v g) then return false
  if let some l := jlookup "$lte" opKvs then
    if !(← pyLe v l) then return false
  if let some e := jlookup "$eq" opKvs then
    if !(pyEq v e) then return false
  if let some n := jlookup "$ne" opKvs then
    if pyEq v n then return false
  if let some xs := jlookup "$in" opKvs then
    if !(← pyIn v xs) then return false
  if let some c := jlookup "$contains" opKvs then
    if !(← pyIn c (.str (pyStr v))) then return false
  return true

/-- `filter_json.check_filters` restricted to dict nodes (the recursion only
calls it on dicts; its non-dict guard returns `False`). -/
def checkFilters (fl : List (String × Json)) (kvs : List (String × Json)) :
    Except String Bool :=
  match fl with
  | [] => .ok true
  | (key, value) :: rest =>
    match jlookup key kvs with
    | none => .ok false
    | some objValue =>
      match value with
      | .obj opKvs => do
        let b ← checkOps opKvs objValue
        if b then checkFilters rest kvs else pure false
      | _ =>
        if pyEq objValue value then checkFilters rest kvs else .ok false

mutual
/-- `filter_json.filter_recursive`. -/
def filterRec (fl : List (String × Json)) : Json → Except String (List Json)
  | .obj kvs => do
    let b ← checkFilters fl kvs
    let sub ← filterKVs fl kvs
    pure ((if b then [Json.obj kvs] else []) ++ sub)
  | .arr xs => filterList fl xs
  | _ => .ok []

def filterKVs (fl : List (String × Json)) : List (String × Json) → Except String (List Json)
  | [] => .ok []
  | (_, v) :: rest => do
    let head ← filterRec fl v
    let tail ← filterKVs fl rest
    pure (head ++ tail)

def filterList (fl : List (String × Json)) : List Json → Except String (List Json)
  | [] => .ok []
  | x :: rest => do
    let head ← filterRec fl x
    let tail ← filterList fl rest
    pure (head ++ tail)
end

/-- `filters.items()` — raises `AttributeError` on non-dicts. -/
def asObjItems (j : Json) : Except String (List (String × Json)) :=
  match j with
  | .obj kvs => .ok kvs
  | _ => .error ("'" ++ pyTypeName j ++ "' object has no attribute 'items'")

/-- `AnalysisTools.filter_json(data, filters)`. -/
def filter_json (data filters : Json) : Json :=
  match (do
      let fl ← asObjItems filters
      filterRec fl data) with
  | .ok results => .obj [("success", .bool true), ("filters_applied", filters),
      ("matches_found", .num results.length), ("results", .arr results)]
  | .error e => errObj e

mutual
/-- `aggregate_data.extract_values`: collect the value of every key equal to
`field`, recursing only into values of the *other* keys. -/
def aggExtract (field : Json) : Json → List Json
  | .obj kvs => aggExtractKVs field kvs
  | .arr xs => aggExtractList field xs
  | _ => []

/-- dict walker for `extract_values`. -/
def aggExtractKVs (field : Json) : List (String × Json) → List Json
  | [] => []
  | (k, v) :: rest =>
    (if pyEq (.str k) field then [v] else aggExtract field v) ++ aggExtractKVs field rest

/-- list walker for `extract_values`. -/
def aggExtractList (field : Json) : List Json → List Json
  | [] => []
  | x :: rest => aggExtract field x ++ aggExtractList field rest
end

/-- `min(values)` / `max(values)` over Python numbers: returns the first
extremal *element* (Python keeps the first of equal candidates). -/
def pyExtremal (gt : Bool) (x : Json) (rest : List Json) : Json :=
  rest.foldl (fun acc v =>
    match toNumQ v, toNumQ acc with
    | some qv, some qa =>
      if (if gt then qa < qv else qv < qa) then v else acc
    | _, _ => acc) x

/-- `AnalysisTools.aggregate_data(data, field, operation="count")`. -/
def aggregate_data (data field : Json) (operation : Json := .str "count") : Json :=
  let values := aggExtract field data
  let base : List (String × Json) := [("success", .bool true), ("field", field),
    ("operation", operation), ("total_values", .num values.length)]
  if pyEq operation (.str "count") then
    match countByValue values with
    | .ok counts => .obj (base ++ [("result", .num values.length),
        ("value_counts", .obj (counts.map (fun vc => (pyStr vc.1, Json.num vc.2))))])
    | .error e => errObj e
  else if pyEq operation (.str "sum") || pyEq operation (.str "avg") ||
      pyEq operation (.str "min") || pyEq operation (.str "max") then
    let numericValues := values.filter pyIsNum
    match numericValues with
    | [] => errObj ("No numeric values found for field '" ++ pyStr field ++ "'")
    | x :: rest =>
      let qs := numericValues.map (fun v => (toNumQ v).getD 0)
      let res : Json :=
        if pyEq operation (.str "sum") then .num qs.sum
        else if pyEq operation (.str "avg") then .num (qs.sum / qs.length)
        else if pyEq operation (.str "min") then pyExtremal false x rest
        else pyExtremal true x rest
      .obj (base ++ [("result", res), ("numeric_values_count", .num numericValues.length)])
  else
    errObj ("Unknown operation: " ++ pyStr operation)

mutual
/-- `extract_hashtags.find_hashtags`: every string value is scanned, dict
keys are not (`obj.values()`). -/
def hashtagsIn : Json → List String
  | .str s => findTags s
  | .obj kvs => hashtagsInKVs kvs
  | .arr xs => hashtagsInList xs
  | _ => []

def hashtagsInKVs : List (String × Json) → List String
  | [] => []
  | (_, v) :: rest => hashtagsIn v ++ hashtagsInKVs rest

def hashtagsInList : List Json → List String
  | [] => []
  | x :: rest => hashtagsIn x ++ hashtagsInList rest
end

/-- `collections.Counter` over strings (always hashable): insertion-ordered
frequency table. -/
def countStrs (acc : List (String × Nat)) : List String → List (String × Nat)
  | [] => acc
  | s :: rest =>
    countStrs (if acc.any (fun e => e.1 = s)
      then acc.map (fun e => if e.1 = s then (e.1, e.2 + 1) else e)
      else acc ++ [(s, 1)]) rest

/-- `Counter.most_common(10)`: stable sort by count descending, first ten. -/
def mostCommon10 (counts : List (String × Nat)) : List (String × Nat) :=
  (counts.mergeSort (fun a b => b.2 ≤ a.2)).take 10

/-- `AnalysisTools.extract_hashtags(data)` (its `try` body cannot raise). -/
def extract_hashtags (data : Json) : Json :=
  let hashtags := hashtagsIn data
  let hashtagCounts := countStrs [] hashtags
  .obj [("success", .bool true), ("total_hashtags", .num hashtags.length),
    ("unique_hashtags", .num hashtagCounts.length),
    ("top_10", .arr ((mostCommon10 hashtagCounts).map
      (fun tc => .arr [.str tc.1, .num tc.2]))),
    ("all_hashtags", .obj (hashtagCounts.map (fun tc => (tc.1, Json.num tc.2))))]

theorem jlookup_mem {k : String} {v : Json} {kvs : List (String × Json)}
    (h : jlookup k kvs = some v) : (k, v) ∈ kvs := by
  induction kvs with
  | nil => simp [jlookup] at h
  | cons kv rest ih =>
    obtain ⟨k', v'⟩ := kv
    by_cases hk : k' = k
    · subst hk
      simp [jlookup] at h
      simp [h]
    · simp [jlookup, hk] at h
      exact List.mem_cons_of_mem _ (ih h)

theorem sizeOf_lt_of_jlookup {k : String} {v : Json} {kvs : List (String × Json)}
    (h : jlookup k kvs = some v) : sizeOf v < sizeOf kvs := by
  have hm := List.sizeOf_lt_of_mem (jlookup_mem h)
  have h2 : sizeOf (k, v) = 1 + sizeOf k + sizeOf v := rfl
  omega

/-- `type(x)` as compared by `compare_recursive` (the `int`/`float`
distinction is collapsed by the rational idealization). -/
def jTag : Json → Nat
  | .null => 0
  | .bool _ => 1
  | .num _ => 2
  | .str _ => 3
  | .arr _ => 4
  | .obj _ => 5

/-- Python `set(keys1) | set(keys2)`, iterated in a deterministic stand-in
order (Python set order is unspecified; the claims proved below do not
depend on it). -/
def unionKeys (kvs1 kvs2 : List (String × Json)) : List String :=
  (kvs1.map Prod.fst ++ kvs2.map Prod.fst).dedup

mutual
/-- `compare_files.compare_recursive`. -/
def compareRec (a b : Json) (path : String) : List Json :=
  if jTag a ≠ jTag b then
    [.obj [("path", .str path), ("type", .str "type_mismatch"),
      ("file1_type", .str (pyTypeName a)), ("file2_type", .str (pyTypeName b))]]
  else
    match a, b with
    | .obj kvs1, .obj kvs2 => compareKeys kvs1 kvs2 path (unionKeys kvs1 kvs2)
    | .arr xs, .arr ys =>
      (if xs.length ≠ ys.length then
        [.obj [("path", .str path), ("type", .str "length_mismatch"),
          ("file1_length", .num xs.length), ("file2_length", .num ys.length)]]
       else []) ++ compareZip xs ys path 0
    | a', b' =>
      if pyEq a' b' then []
      else [.obj [("path", .str path), ("type", .str "value_mismatch"),
        ("file1_value", .str (pyStrTrunc a' 100)), ("file2_value", .str (pyStrTrunc b' 100))]]
termination_by (sizeOf a, 0)
decreasing_by
  all_goals refine Prod.Lex.left _ _ ?_
  all_goals simp only [Json.obj.sizeOf_spec, Json.arr.sizeOf_spec]
  all_goals omega

def compareKeys (kvs1 kvs2 : List (String × Json)) (path : String) :
    List String → List Json
  | [] => []
  | k :: rest =>
    (match h1 : jlookup k kvs1, h2 : jlookup k kvs2 with
     | none, some v =>
       [.obj [("path", .str (path ++ "." ++ k)), ("type", .str "missing_in_file1"), ("value", v)]]
     | some v, none =>
       [.obj [("path", .str (path ++ "." ++ k)), ("type", .str "missing_in_file2"), ("value", v)]]
     | some v1, some v2 => compareRec v1 v2 (path ++ "." ++ k)
     | none, none => []) ++ compareKeys kvs1 kvs2 path rest
termination_by ks => (sizeOf kvs1, ks.length)
decreasing_by
  all_goals first
    | exact Prod.Lex.left _ _ (sizeOf_lt_of_jlookup h1)
    | exact Prod.Lex.right _ (by simp)

def compareZip (xs ys : List Json) (path : String) (i : Nat) : List Json :=
  match xs, ys with
  | x :: xs', y :: ys' =>
    compareRec x y (path ++ "[" ++ toString i ++ "]") ++ compareZip xs' ys' path (i + 1)
  | _, _ => []
termination_by (sizeOf xs, 0)
decreasing_by
  all_goals refine Prod.Lex.left _ _ ?_
  all_goals simp
  all_goals try omega
end

/-- `open(path); json.load(f)` — raises on read failure or malformed JSON. -/
def loadJsonFile (fs : FS) (jloads : JLoads) (path : String) : Except String Json := do
  let content ← (fs.readFile path).mapError ReadErr.msg
  match jloads content with
  | some d => pure d
  | none => throw jsonDecodeErrMsg

/-- `AnalysisTools.compare_files(file1, file2)`. -/
def compare_files (fs : FS) (jloads : JLoads) (file1 file2 : Json) : Json :=
  match (do
      let f1 ← asPathStr file1
      let f2 ← asPathStr file2
      let data1 ← loadJsonFile fs jloads f1
      let data2 ← loadJsonFile fs jloads f2
      pure (compareRec data1 data2 "root")) with
  | .ok diffs => .obj [("success", .bool true), ("file1", file1), ("file2", file2),
      ("differences_count", .num diffs.length), ("differences", .arr (diffs.take 50))]
  | .error e => errObj e

/-- `AnalysisTools.get_consolidated_data(platform="all")`. -/
def get_consolidated_data (fs : FS) (jloads : JLoads) (platform : Json := .str "all") : Json :=
  if !(fs.pathExists "data/consolidated") then
    .obj [("error", .str "Consolidated data not found. Run consolidate_media_data.py first"),
      ("suggestion", .str "python consolidate_media_data.py")]
  else
    match (do
        let ig ←
          if pyEq platform (.str "instagram") || pyEq platform (.str "all") then
            if fs.pathExists "data/consolidated/instagram_consolidated.json" then do
              let d ← loadJsonFile fs jloads "data/consolidated/instagram_consolidated.json"
              pure [("instagram", d)]
            else pure []
          else pure []
        let yt ←
          if pyEq platform (.str "youtube") || pyEq platform (.str "all") then
            if fs.pathExists "data/consolidated/youtube_consolidated.json" then do
              let d ← loadJsonFile fs jloads "data/consolidated/youtube_consolidated.json"
              pure [("youtube", d)]
            else pure []
          else pure []
        pure (ig ++ yt) : Except String (List (String × Json))) with
    | .error e => errObj ("Failed to load consolidated data: " ++ e)
    | .ok result =>
      if result.isEmpty then
        errObj ("No consolidated data found for platform: " ++ pyStr platform)
      else
        .obj [("success", .bool true), ("platform", platform), ("data", .obj result)]

/-- `AnalysisTools.get_media_summary(platform="all")`. -/
def get_media_summary (fs : FS) (jloads : JLoads) (platform : Json := .str "all") : Json :=
  if !(fs.pathExists "data/consolidated") then
    errObj "Consolidated data not found. Run consolidate_media_data.py first"
  else
    match (do
        let ig ←
          if pyEq platform (.str "instagram") || pyEq platform (.str "all") then
            if fs.pathExists "data/consolidated/instagram_summary.json" then do
              let d ← loadJsonFile fs jloads "data/consolidated/instagram_summary.json"
              pure [("instagram", d)]
            else pure []
          else pure []
        let yt ←
          if pyEq platform (.str "youtube") || pyEq platform (.str "all") then
            if fs.pathExists "data/consolidated/youtube_summary.json" then do
              let d ← loadJsonFile fs jloads "data/consolidated/youtube_summary.json"
              pure [("youtube", d)]
            else pure []
          else pure []
        pure (ig ++ yt) : Except String (List (String × Json))) with
    | .error e => errObj ("Failed to load summary data: " ++ e)
    | .ok result =>
      if result.isEmpty then
        errObj ("No summary data found for platform: " ++ pyStr platform)
      else
        .obj [("success", .bool true), ("platform", platform), ("summaries", .obj result)]

/-- Python `round(q, 2)` (round-half-to-even). -/
def round2 (q : ℚ) : ℚ :=
  let x := q * 100
  let f : ℤ := ⌊x⌋
  let n : ℤ :=
    if x - f < 1/2 then f
    else if x - f > 1/2 then f + 1
    else if f % 2 = 0 then f else f + 1
  (n : ℚ) / 100

/-- `AnalysisTools.list_json_files(directory=".")` (the decorator
`retry_on_error` only retries raised exceptions, and the wrapped body cannot
raise, so it is the identity here; the per-file `stat` try/except-continue
is inert because `FS.globJson` already carries total metadata). -/
def list_json_files (fs : FS) (directory : Json := .str ".") : Json :=
  match asPathStr directory with
  | .error e => errObj e
  | .ok dir =>
    if !(fs.pathExists dir) then
      errObj ("Directory " ++ pyStr directory ++ " not found")
    else
      let files := (fs.globJson dir).mergeSort (fun a b => b.modified ≤ a.modified)
      .obj [("success", .bool true), ("count", .num (fs.globJson dir).length),
        ("files", .arr (files.map (fun f =>
          .obj [("filename", .str f.name), ("path", .str f.path),
            ("size_bytes", .num f.size), ("size_kb", .num (round2 (f.size / 1024))),
            ("modified", .str f.modified)])))]

/-- `AnalysisTools.read_json_file(filename)` (decorator as above). -/
def read_json_file (fs : FS) (jloads : JLoads) (filename : Json) : Json :=
  match asPathStr filename with
  | .error e => .obj [("error", .str ("Unexpected error: " ++ e)), ("filename", filename)]
  | .ok f =>
    let path? :=
      if fs.pathExists f then some f
      else [pathJoin "." f, pathJoin "data" f, pathJoin "data/accounts" f].find? fs.pathExists
    match path? with
    | none => errObj ("File " ++ f ++ " not found in any known location")
    | some path =>
      match fs.readFile path with
      | .error (.unicode m) =>
        .obj [("error", .str ("File encoding error: " ++ m)), ("filename", filename)]
      | .error (.perm m) =>
        .obj [("error", .str ("Permission denied: " ++ m)), ("filename", filename)]
      | .error (.other m) =>
        .obj [("error", .str ("Unexpected error: " ++ m)), ("filename", filename)]
      | .ok content =>
        match safe_json_loads jloads content with
        | none => .obj [("error", .str "Failed to parse JSON file"), ("filename", .str path),
            ("content_preview", .str (content.take 200))]
        | some d =>
          .obj [("success", .bool true), ("filename", .str path), ("data", d),
            ("summary", .obj [("type", .str (pyTypeName d)),
              ("keys", match d with
                | .obj kvs => .arr (kvs.map (fun kv => .str kv.1))
                | _ => .null),
              ("length", match d with
                | .obj kvs => .num kvs.length
                | .arr xs => .num xs.length
                | _ => .null),
              ("file_size", .num (fs.statSize path))])]

/-- `d[k]`. -/
def pyIndex (j : Json) (k : String) : Except String Json :=
  match j with
  | .obj kvs =>
    match jlookup k kvs with
    | some v => .ok v
    | none => .error ("KeyError: '" ++ k ++ "'")
  | _ => .error ("'" ++ pyTypeName j ++ "' object is not subscriptable")

/-- One Instagram post of `search_media_content`: `some record` when the
query matches caption or hashtags, `none` otherwise. -/
def igRecord (ql : String) (post : Json) : Except String (Option Json) := do
  let capL ← pyLowerE (← pyGet post "caption" (.str ""))
  let htEls ← jIterE (← pyGet post "hashtags" (.arr []))
  let htsL ← htEls.mapM pyLowerE
  if strContains capL ql || strContains (String.intercalate " " htsL) ql then do
    let ty ← pyGet post "type" (.str "")
    let url ← pyGet post "url" (.str "")
    let capT ← pySliceTake (← pyGet post "caption" (.str "")) 200
    let htT ← pySliceTake (← pyGet post "hashtags" (.arr [])) 10
    let likes ← pyGet post "likes" (.num 0)
    let comments ← pyGet post "comments" (.num 0)
    let creator ← pyGet post "creator" (.str "")
    pure (some (.obj [("platform", .str "instagram"), ("type", ty), ("url", url),
      ("caption", capT), ("hashtags", htT), ("likes", likes),
      ("comments", comments), ("creator", creator)]))
  else pure none

/-- One YouTube video of `search_media_content`. -/
def ytRecord (ql : String) (video : Json) : Except String (Option Json) := do
  let titleL ← pyLowerE (← pyGet video "title" (.str ""))
  let descL ← pyLowerE (← pyGet video "description" (.str ""))
  let tagEls ← jIterE (← pyGet video "tags" (.arr []))
  let tagsL ← tagEls.mapM pyLowerE
  if strContains titleL ql || strContains descL ql ||
      strContains (String.intercalate " " tagsL) ql then do
    let url ← pyGet video "url" (.str "")
    let titleT ← pySliceTake (← pyGet video "title" (.str "")) 200
    let descT ← pySliceTake (← pyGet video "description" (.str "")) 200
    let tagT ← pySliceTake (← pyGet video "tags" (.arr [])) 10
    let views ← pyGet video "views" (.num 0)
    let likes ← pyGet video "likes" (.num 0)
    let channel ← pyGet video "channel" (.str "")
    pure (some (.obj [("platform", .str "youtube"), ("url", url), ("title", titleT),
      ("description", descT), ("tags", tagT), ("views", views), ("likes", likes),
      ("channel", channel)]))
  else pure none

/-- The sort key `x.get("likes", 0) + x.get("views", 0) + x.get("comments", 0)`. -/
def engagementKey (r : Json) : Except String Json := do
  let a ← pyGet r "likes" (.num 0)
  let b ← pyGet r "views" (.num 0)
  let c ← pyGet r "comments" (.num 0)
  pyAdd (← pyAdd a b) c

/-- `sorted(results, key=..., reverse=True)`: stable descending sort over
precomputed keys; a mixed-type key list raises, as CPython's sort does when
it compares incomparable keys. -/
def sortedDescByKey (pairs : List (Json × Json)) : Except String (List Json) :=
  if pairs.all (fun p => pyIsNum p.2) then
    .ok ((pairs.mergeSort (fun a b => ((toNumQ b.2).getD 0) ≤ ((toNumQ a.2).getD 0))).map Prod.fst)
  else if pairs.all (fun p => match p.2 with | .str _ => true | _ => false) then
    .ok ((pairs.mergeSort (fun a b =>
      (match b.2 with | .str s => s | _ => "") ≤ (match a.2 with | .str s => s | _ => ""))).map Prod.fst)
  else
    .error "'<' not supported between instances of incomparable sort keys"

/-- `AnalysisTools.search_media_content(query, platform="all", limit=20)`. -/
def search_media_content (fs : FS) (jloads : JLoads) (query : Json)
    (platform : Json := .str "all") (limit : Json := .num 20) : Json :=
  let consolidated := get_consolidated_data fs jloads platform
  if hasKey "error" consolidated then consolidated
  else
    match (do
        let ql ← pyLowerE query
        let data ← pyGet consolidated "data" (.obj [])
        let igRes ←
          if ← pyIn (.str "instagram") data then do
            let posts ← pyGet (← pyIndex data "instagram") "posts" (.arr [])
            let postEls ← jIterE posts
            let recs ← postEls.mapM (igRecord ql)
            pure (recs.filterMap id)
          else pure []
        let ytRes ←
          if ← pyIn (.str "youtube") data then do
            let videos ← pyGet (← pyIndex data "youtube") "videos" (.arr [])
            let videoEls ← jIterE videos
            let recs ← videoEls.mapM (ytRecord ql)
            pure (recs.filterMap id)
          else pure []
        let results := igRes ++ ytRes
        let keys ← results.mapM engagementKey
        let sortedRes ← sortedDescByKey (results.zip keys)
        let limN ← asSliceIdx limit
        pure (pySliceToIdx sortedRes limN) : Except String (List Json)) with
    | .ok final => .obj [("success", .bool true), ("query", query),
        ("total_results", .num final.length), ("results", .arr final)]
    | .error e => errObj ("Search failed: " ++ e)

end AnalysisTools

namespace AIAgent

/-- `AIAgent.get_available_tools()` — the immutable tool catalog. -/
def get_available_tools : List Json :=
  [.obj [("name", .str "get_consolidated_data"),
    ("description", .str "Get consolidated Instagram/YouTube data (FAST - use this first!)"),
    ("parameters", .obj [("platform", .str "Platform: 'instagram', 'youtube', or 'all' (default)")])],
   .obj [("name", .str "get_media_summary"),
    ("description", .str "Get lightweight summary of Instagram/YouTube data (VERY FAST - quick stats)"),
    ("parameters", .obj [("platform", .str "Platform: 'instagram', 'youtube', or 'all' (default)")])],
   .obj [("name", .str "search_media_content"),
    ("description", .str "Search through Instagram/YouTube content by keywords (FAST)"),
    ("parameters", .obj [("query", .str "Search query/keyword"),
      ("platform", .str "Platform: 'instagram', 'youtube', or 'all'"),
      ("limit", .str "Max results (default: 20)")])],
   .obj [("name", .str "list_json_files"),
    ("description", .str "List all JSON files in a directory with metadata (size, modified date)"),
    ("parameters", .obj [("directory", .str "Directory path (default: current directory)")])],
   .obj [("name", .str "read_json_file"),
    ("description", .str "Read and parse a JSON file, returning its contents and summary"),
    ("parameters", .obj [("filename", .str "Path to the JSON file")])],
   .obj [("name", .str "keyword_search"),
    ("description", .str "Search for keywords in JSON data recursively"),
    ("parameters", .obj [("data", .str "JSON data to search in"),
      ("keywords", .str "List of keywords to search for"),
      ("case_sensitive", .str "Whether to do case-sensitive search (default: False)")])],
   .obj [("name", .str "filter_json"),
    ("description", .str "Filter JSON data based on conditions (supports $gt, $lt, $eq, $ne, $in, $contains)"),
    ("parameters", .obj [("data", .str "JSON data to filter"),
      ("filters", .str "Dictionary of filter conditions")])],
   .obj [("name", .str "aggregate_data"),
    ("description", .str "Aggregate data from JSON (count, sum, avg, min, max)"),
    ("parameters", .obj [("data", .str "JSON data"),
      ("field", .str "Field name to aggregate"),
      ("operation", .str "Operation: count, sum, avg, min, max")])],
   .obj [("name", .str "extract_hashtags"),
    ("description", .str "Extract and count hashtags from text fields in JSON data"),
    ("parameters", .obj [("data", .str "JSON data containing text with hashtags")])],
   .obj [("name", .str "compare_files"),
    ("description", .str "Compare two JSON files and find differences"),
    ("parameters", .obj [("file1", .str "Path to first JSON file"),
      ("file2", .str "Path to second JSON file")])]]

/-- The names of the catalog's descriptors, in order. -/
def toolNames : List String :=
  ["get_consolidated_data", "get_media_summary", "search_media_content",
   "list_json_files", "read_json_file", "keyword_search", "filter_json",
   "aggregate_data", "extract_hashtags", "compare_files"]

/-- The `for attempt in range(max_retries)` loop of `execute_tool` around a
deterministic dispatch with `max_retries = 2`: a result carrying an `error`
key is recomputed once (the backoff sleep is not modelled); the second
result is returned whether or not it still carries an error.  The second
component counts how many times the engine operation was invoked. -/
def retryTool (call : Unit → Json) : Json × Nat :=
  let r := call ()
  if hasKey "error" r then (call (), 2) else (r, 1)

/-- `AIAgent.execute_tool(tool_name, parameters, max_retries=2)`.  Returns
the result together with the number of engine dispatches performed
(validation failures and unknown tools return before any dispatch). -/
def execute_tool (fs : FS) (jloads : JLoads) (tool_name parameters : Json) : Json × Nat :=
  match parameters with
  | .obj ps =>
    if pyEq tool_name (.str "get_consolidated_data") then
      retryTool (fun _ => AnalysisTools.get_consolidated_data fs jloads (jget "platform" ps (.str "all")))
    else if pyEq tool_name (.str "get_media_summary") then
      retryTool (fun _ => AnalysisTools.get_media_summary fs jloads (jget "platform" ps (.str "all")))
    else if pyEq tool_name (.str "search_media_content") then
      let query := jget "query" ps .null
      if !(pyTruthy query) then (errObj "Missing required parameter: query", 0)
      else retryTool (fun _ => AnalysisTools.search_media_content fs jloads query
        (jget "platform" ps (.str "all")) (jget "limit" ps (.num 20)))
    else if pyEq tool_name (.str "list_json_files") then
      retryTool (fun _ => AnalysisTools.list_json_files fs (jget "directory" ps (.str ".")))
    else if pyEq tool_name (.str "read_json_file") then
      let filename := jget "filename" ps .null
      if !(pyTruthy filename) then (errObj "Missing required parameter: filename", 0)
      else retryTool (fun _ => AnalysisTools.read_json_file fs jloads filename)
    else if pyEq tool_name (.str "keyword_search") then
      let data := jget "data" ps .null
      let keywords := jget "keywords" ps .null
      if !(pyTruthy data) || !(pyTruthy keywords) then
        (errObj "Missing required parameters: data, keywords", 0)
      else retryTool (fun _ => AnalysisTools.keyword_search data keywords
        (jget "case_sensitive" ps (.bool false)))
    else if pyEq tool_name (.str "filter_json") then
      let data := jget "data" ps .null
      let filters := jget "filters" ps .null
      if !(pyTruthy data) || !(pyTruthy filters) then
        (errObj "Missing required parameters: data, filters", 0)
      else retryTool (fun _ => AnalysisTools.filter_json data filters)
    else if pyEq tool_name (.str "aggregate_data") then
      let data := jget "data" ps .null
      let field := jget "field" ps .null
      if !(pyTruthy data) || !(pyTruthy field) then
        (errObj "Missing required parameters: data, field", 0)
      else retryTool (fun _ => AnalysisTools.aggregate_data data field
        (jget "operation" ps (.str "count")))
    else if pyEq tool_name (.str "extract_hashtags") then
      let data := jget "data" ps .null
      if !(pyTruthy data) then (errObj "Missing required parameter: data", 0)
      else retryTool (fun _ => AnalysisTools.extract_hashtags data)
    else if pyEq tool_name (.str "compare_files") then
      let file1 := jget "file1" ps .null
      let file2 := jget "file2" ps .null
      if !(pyTruthy file1) || !(pyTruthy file2) then
        (errObj "Missing required parameters: file1, file2", 0)
      else retryTool (fun _ => AnalysisTools.compare_files fs jloads file1 file2)
    else
      (errObj ("Unknown tool: " ++ pyStr tool_name), 0)
  | _ => (errObj "Parameters must be a dictionary", 0)

/-- The regex `` r'```json\s*(.*?)\s*```' `` applied by `run`: leftmost
match; the greedy `\s*` after the marker and the lazy group bounded by
`\s*```` ` amount to trimming the text between the marker and the next
fence (no match without a closing fence). -/
def fencedJsonBlock (s : String) : Option String := do
  let rest ← dropThroughTok "```json".data s.data
  let g ← takeUntilTok "```".data rest
  pure (String.mk (trimChars g))

/-- The fallback regex `` r'```\s*(.*?)\s*```' ``. -/
def fencedAnyBlock (s : String) : Option String := do
  let rest ← dropThroughTok "```".data s.data
  let g ← takeUntilTok "```".data rest
  pure (String.mk (trimChars g))

/-- The extraction step of `run`: prefer a ```json fence, then (when three
backticks occur at all) any fenced block, else leave the text unchanged. -/
def stripFences (s : String) : String :=
  match fencedJsonBlock s with
  | some g => g
  | none =>
    if strContains s "```" then
      match fencedAnyBlock s with
      | some g => g
      | none => s
    else s

/-- One record of the run's iteration log. -/
structure IterRec where
  iteration : Nat
  tool : Json
  parameters : Json
  result : Json

/-- The three result shapes `run` can return: `answered` and `failed` carry
the fields of the corresponding `return` statements; `exhausted` is the
post-loop summary return, whose `final_answer` is the fixed text
`"Maximum iterations reached. ..."` followed by a dump of the log (the dump
string itself is not modelled). -/
inductive Outcome where
  | answered (iterations : List IterRec) (finalAnswer : Json) (total : Nat)
  | failed (err : String) (iterations : List IterRec) (iterationFailed : Nat)
  | exhausted (iterations : List IterRec) (total : Nat)

/-- `self.max_iterations` (set to 3 in `__init__`). -/
def maxIterations : Nat := 3

/-- The `for iteration in range(self.max_iterations)` loop of `AIAgent.run`,
from iteration `i` with log `iters`.  `respond i` models the `i`-th
`generate_content(...).text` (`.error` = raised transport exception, caught
by the iteration's outer `except`).  The second component counts model
invocations.  A parsed non-dict makes `action_data.get(...)` raise
`AttributeError`, which the outer `except` turns into a failed run. -/
def runLoop (fs : FS) (jloads : JLoads) (respond : Nat → Except String String) :
    Nat → List IterRec → Outcome × Nat
  | i, iters =>
    if _h : i < maxIterations then
      match respond i with
      | .error e => (.failed e iters (i + 1), 1)
      | .ok text =>
        let rt := stripFences (pyStrip text)
        match jloads rt with
        | none => (.answered iters (.str rt) (i + 1), 1)
        | some (.obj kvs) =>
          let act := jget "action" kvs .null
          if pyEq act (.str "answer") then
            (.answered iters (jget "response" kvs .null) (i + 1), 1)
          else if pyEq act (.str "use_tool") then
            let tool := jget "tool" kvs .null
            let ps := jget "parameters" kvs (.obj [])
            let tr := (execute_tool fs jloads tool ps).1
            let next := runLoop fs jloads respond (i + 1) (iters ++ [⟨i + 1, tool, ps, tr⟩])
            (next.1, next.2 + 1)
          else
            let next := runLoop fs jloads respond (i + 1) iters
            (next.1, next.2 + 1)
        | some j =>
          (.failed ("'" ++ pyTypeName j ++ "' object has no attribute 'get'") iters (i + 1), 1)
    else (.exhausted iters maxIterations, 0)
termination_by i _ => maxIterations - i

/-- `AIAgent.run(user_query, context)`: the prompt text (and hence the query
and context) only feeds the external model, which is abstracted by
`respond`, so the run is fully determined by `respond`. -/
def run (fs : FS) (jloads : JLoads) (respond : Nat → Except String String) : Outcome × Nat :=
  runLoop fs jloads respond 0 []

end AIAgent

/-! ### Spec-side definitions (written from the specification's wording, for
refinement statements) and general lemmas. -/

/-- Spec side: a result mapping "containing either success data or an
`error` entry". -/
def resultShaped (r : Json) : Prop :=
  (∃ kvs, r = .obj kvs) ∧ (hasKey "success" r || hasKey "error" r) = true

theorem errObj_shaped (msg : String) : resultShaped (errObj msg) := by
  exact ⟨⟨_, rfl⟩, by simp [errObj, hasKey, jlookup]⟩

theorem compareZip_self (xs : List Json) (path : String) (i : Nat)
    (ih : ∀ x ∈ xs, ∀ p, AnalysisTools.compareRec x x p = []) :
    AnalysisTools.compareZip xs xs path i = [] := by
  induction xs generalizing i with
  | nil => simp [AnalysisTools.compareZip]
  | cons x rest ihr =>
    rw [AnalysisTools.compareZip]
    rw [ih x (by simp), ihr (i + 1) (fun y hy => ih y (by simp [hy]))]
    rfl

theorem compareKeys_self (kvs : List (String × Json)) (path : String)
    (ih : ∀ kv ∈ kvs, ∀ p, AnalysisTools.compareRec kv.2 kv.2 p = [])
    (ks : List String) : AnalysisTools.compareKeys kvs kvs path ks = [] := by
  induction ks with
  | nil => simp [AnalysisTools.compareKeys]
  | cons k rest ihr =>
    rw [AnalysisTools.compareKeys]
    cases h : jlookup k kvs with
    | none => simp [h, ihr]
    | some v =>
      simp only [h]
      rw [ih (k, v) (AnalysisTools.jlookup_mem h) _, ihr]
      simp

/-- `compare_recursive(x, x, path)` finds no differences. -/
theorem compareRec_self (a : Json) : ∀ path, AnalysisTools.compareRec a a path = [] := by
  induction a using Json.recOn_mem with
  | hnull =>
    intro path
    rw [AnalysisTools.compareRec]
    simp [AnalysisTools.jTag, pyEq]
    all_goals exact fun _ _ h _ => Json.noConfusion h
  | hbool b =>
    intro path
    rw [AnalysisTools.compareRec]
    cases b <;> simp [AnalysisTools.jTag, pyEq, toNumQ]
    all_goals exact fun _ _ h _ => Json.noConfusion h
  | hnum q =>
    intro path
    rw [AnalysisTools.compareRec]
    simp [AnalysisTools.jTag, pyEq, toNumQ]
    all_goals exact fun _ _ h _ => Json.noConfusion h
  | hstr s =>
    intro path
    rw [AnalysisTools.compareRec]
    simp [AnalysisTools.jTag, pyEq]
    all_goals exact fun _ _ h _ => Json.noConfusion h
  | harr xs ih =>
    intro path
    rw [AnalysisTools.compareRec]
    rw [compareZip_self xs path 0 ih]
    simp [AnalysisTools.jTag]
  | hobj kvs ih =>
    intro path
    rw [AnalysisTools.compareRec]
    rw [compareKeys_self kvs path ih _]
    simp [AnalysisTools.jTag]

/-- Claim C8: for every file path `A` whose contents load as JSON,
`compare_files(A, A)` — the file compared with itself — returns success with
`differences_count == 0` and an empty differences list. -/
theorem C8_compare_file_with_itself (fs : FS) (jloads : JLoads) (A content : String)
    (d : Json) (hread : fs.readFile A = .ok content) (hparse : jloads content = some d) :
    AnalysisTools.compare_files fs jloads (.str A) (.str A) =
      .obj [("success", .bool true), ("file1", .str A), ("file2", .str A),
        ("differences_count", .num 0), ("differences", .arr [])] := by
  unfold AnalysisTools.compare_files
  simp [asPathStr, AnalysisTools.loadJsonFile, hread, hparse, compareRec_self,
    Except.mapError, bind, Except.bind, pure, Except.pure]

/-- Filesystem/parser instances used by concrete witnesses. -/
def witnessFS : FS where
  pathExists := fun _ => false
  readFile := fun _ => .ok "0"
  globJson := fun _ => []
  statSize := fun _ => 0

def witnessJL : JLoads := fun s => if s = "0" then some (.num 0) else none

theorem C8_compare_file_with_itself_witness :
    AnalysisTools.compare_files witnessFS witnessJL (.str "a.json") (.str "a.json") =
      .obj [("success", .bool true), ("file1", .str "a.json"), ("file2", .str "a.json"),
        ("differences_count", .num 0), ("differences", .arr [])] :=
  C8_compare_file_with_itself witnessFS witnessJL "a.json" "0" (.num 0) rfl rfl

theorem pyEq_str_str (a b : String) : pyEq (.str a) (.str b) = decide (a = b) := by
  simp [pyEq]

/-- Claim C7: a parsed action requesting a tool name matching no catalog
descriptor makes `execute_tool` return `{"error": "Unknown tool: <name>"}`
without any engine dispatch (the retry loop is not entered), the iteration
record is appended, and the agent loop continues with the next iteration —
the run neither crashes nor terminates because of the unknown name. -/
theorem C7_unknown_tool_continues (fs : FS) (jloads : JLoads) :
    (∀ (name : String) (ps : List (String × Json)), name ∉ AIAgent.toolNames →
      AIAgent.execute_tool fs jloads (.str name) (.obj ps) =
        (errObj ("Unknown tool: " ++ name), 0)) ∧
    (∀ (respond : Nat → Except String String) (i : Nat) (iters : List AIAgent.IterRec)
        (text : String) (kvs ps : List (String × Json)) (name : String),
      i < AIAgent.maxIterations →
      respond i = .ok text →
      jloads (AIAgent.stripFences (pyStrip text)) = some (.obj kvs) →
      jget "action" kvs .null = .str "use_tool" →
      jget "tool" kvs .null = .str name →
      jget "parameters" kvs (.obj []) = .obj ps →
      name ∉ AIAgent.toolNames →
      AIAgent.runLoop fs jloads respond i iters =
        ((AIAgent.runLoop fs jloads respond (i + 1)
            (iters ++ [⟨i + 1, .str name, .obj ps, errObj ("Unknown tool: " ++ name)⟩])).1,
         (AIAgent.runLoop fs jloads respond (i + 1)
            (iters ++ [⟨i + 1, .str name, .obj ps, errObj ("Unknown tool: " ++ name)⟩])).2 + 1)) := by
  have hexec : ∀ (name : String) (ps : List (String × Json)), name ∉ AIAgent.toolNames →
      AIAgent.execute_tool fs jloads (.str name) (.obj ps) =
        (errObj ("Unknown tool: " ++ name), 0) := by
    intro name ps h
    simp only [AIAgent.toolNames, List.mem_cons, List.not_mem_nil, or_false, not_or] at h
    obtain ⟨h1, h2, h3, h4, h5, h6, h7, h8, h9, h10⟩ := h
    simp [AIAgent.execute_tool, pyEq_str_str, h1, h2, h3, h4, h5, h6, h7, h8, h9, h10, pyStr]
  refine ⟨hexec, ?_⟩
  intro respond i iters text kvs ps name hi hresp hparse hact htool hps hname
  rw [AIAgent.runLoop]
  simp only [hi, if_pos, hresp, hparse, hact, htool, hps]
  rw [if_neg (by simp [pyEq_str_str])]
  simp [pyEq_str_str, hexec name ps hname]

theorem jget_of_lookup {k : String} {ps : List (String × Json)} {v : Json} (dflt : Json)
    (h : jlookup k ps = some v) : jget k ps dflt = v := by
  simp [jget, h]

/-- Claim C9: `execute_tool` validates required parameters by Python
truthiness, not by presence — a required parameter that is supplied but
falsy (empty list/mapping/string, `0`, `False`, `None`) yields the
`Missing required parameter(s)` error with no engine dispatch, for every
tool that checks required parameters; yet the engine operation itself
(e.g. `keyword_search` on empty data and keywords) returns an empty
successful result for such input. -/
theorem C9_falsy_required_params (fs : FS) (jloads : JLoads) :
    (∀ (ps : List (String × Json)) (q : Json), jlookup "query" ps = some q →
      pyTruthy q = false →
      AIAgent.execute_tool fs jloads (.str "search_media_content") (.obj ps) =
        (errObj "Missing required parameter: query", 0)) ∧
    (∀ (ps : List (String × Json)) (f : Json), jlookup "filename" ps = some f →
      pyTruthy f = false →
      AIAgent.execute_tool fs jloads (.str "read_json_file") (.obj ps) =
        (errObj "Missing required parameter: filename", 0)) ∧
    (∀ (ps : List (String × Json)) (d k : Json), jlookup "data" ps = some d →
      jlookup "keywords" ps = some k → (pyTruthy d = false ∨ pyTruthy k = false) →
      AIAgent.execute_tool fs jloads (.str "keyword_search") (.obj ps) =
        (errObj "Missing required parameters: data, keywords", 0)) ∧
    (∀ (ps : List (String × Json)) (d f : Json), jlookup "data" ps = some d →
      jlookup "filters" ps = some f → (pyTruthy d = false ∨ pyTruthy f = false) →
      AIAgent.execute_tool fs jloads (.str "filter_json") (.obj ps) =
        (errObj "Missing required parameters: data, filters", 0)) ∧
    (∀ (ps : List (String × Json)) (d f : Json), jlookup "data" ps = some d →
      jlookup "field" ps = some f → (pyTruthy d = false ∨ pyTruthy f = false) →
      AIAgent.execute_tool fs jloads (.str "aggregate_data") (.obj ps) =
        (errObj "Missing required parameters: data, field", 0)) ∧
    (∀ (ps : List (String × Json)) (d : Json), jlookup "data" ps = some d →
      pyTruthy d = false →
      AIAgent.execute_tool fs jloads (.str "extract_hashtags") (.obj ps) =
        (errObj "Missing required parameter: data", 0)) ∧
    (∀ (ps : List (String × Json)) (f1 f2 : Json), jlookup "file1" ps = some f1 →
      jlookup "file2" ps = some f2 → (pyTruthy f1 = false ∨ pyTruthy f2 = false) →
      AIAgent.execute_tool fs jloads (.str "compare_files") (.obj ps) =
        (errObj "Missing required parameters: file1, file2", 0)) ∧
    (AnalysisTools.keyword_search (.obj []) (.arr []) (.bool false) =
      .obj [("success", .bool true), ("keywords", .arr []),
        ("total_matches", .num 0), ("matches", .arr [])]) := by
  refine ⟨?_, ?_, ?_, ?_, ?_, ?_, ?_, ?_⟩
  · intro ps q hq hfq
    simp [AIAgent.execute_tool, pyEq_str_str, jget_of_lookup _ hq, hfq]
  · intro ps f hf hff
    simp [AIAgent.execute_tool, pyEq_str_str, jget_of_lookup _ hf, hff]
  · intro ps d k hd hk hfk
    rcases hfk with h | h <;>
      simp [AIAgent.execute_tool, pyEq_str_str, jget_of_lookup _ hd, jget_of_lookup _ hk, h]
  · intro ps d f hd hf hff
    rcases hff with h | h <;>
      simp [AIAgent.execute_tool, pyEq_str_str, jget_of_lookup _ hd, jget_of_lookup _ hf, h]
  · intro ps d f hd hf hff
    rcases hff with h | h <;>
      simp [AIAgent.execute_tool, pyEq_str_str, jget_of_lookup _ hd, jget_of_lookup _ hf, h]
  · intro ps d hd hfd
    simp [AIAgent.execute_tool, pyEq_str_str, jget_of_lookup _ hd, hfd]
  · intro ps f1 f2 h1 h2 hff
    rcases hff with h | h <;>
      simp [AIAgent.execute_tool, pyEq_str_str, jget_of_lookup _ h1, jget_of_lookup _ h2, h]
  · simp [AnalysisTools.keyword_search, AnalysisTools.searchRec, AnalysisTools.searchKVs, pyTruthy]

/-- The response text used by the C7 witness. -/
def c7text : String := "\x7b\"action\": \"use_tool\", \"tool\": \"frobnicate\"\x7d"

def c7parsed : List (String × Json) := [("action", .str "use_tool"), ("tool", .str "frobnicate")]

def c7jl : JLoads := fun s => if s = c7text then some (.obj c7parsed) else none

def c7respond : Nat → Except String String := fun _ => .ok c7text

theorem C7_unknown_tool_continues_witness :
    AIAgent.execute_tool witnessFS c7jl (.str "frobnicate") (.obj []) =
      (errObj "Unknown tool: frobnicate", 0) ∧
    AIAgent.runLoop witnessFS c7jl c7respond 0 [] =
      ((AIAgent.runLoop witnessFS c7jl c7respond 1
          [⟨1, .str "frobnicate", .obj [], errObj "Unknown tool: frobnicate"⟩]).1,
       (AIAgent.runLoop witnessFS c7jl c7respond 1
          [⟨1, .str "frobnicate", .obj [], errObj "Unknown tool: frobnicate"⟩]).2 + 1) := by
  constructor
  · exact (C7_unknown_tool_continues witnessFS c7jl).1 "frobnicate" [] (by decide)
  · have hs : AIAgent.stripFences (pyStrip c7text) = c7text := by decide
    have h := (C7_unknown_tool_continues witnessFS c7jl).2 c7respond 0 [] c7text
      c7parsed [] "frobnicate" (by decide) rfl (by rw [hs]; simp [c7jl]) rfl rfl rfl (by decide)
    simpa using h

theorem C9_falsy_required_params_witness :
    AIAgent.execute_tool witnessFS witnessJL (.str "keyword_search")
        (.obj [("data", .obj []), ("keywords", .arr [])]) =
      (errObj "Missing required parameters: data, keywords", 0) ∧
    AnalysisTools.keyword_search (.obj []) (.arr []) (.bool false) =
      .obj [("success", .bool true), ("keywords", .arr []),
        ("total_matches", .num 0), ("matches", .arr [])] :=
  ⟨(C9_falsy_required_params witnessFS witnessJL).2.2.1
      [("data", .obj []), ("keywords", .arr [])] (.obj []) (.arr []) rfl rfl (.inl rfl),
   (C9_falsy_required_params witnessFS witnessJL).2.2.2.2.2.2.2⟩

/-- A model response that parses (per the run's extraction pipeline) to a
`use_tool` action. -/
def parsesToToolUse (jloads : JLoads) (respond : Nat → Except String String) (i : Nat) : Prop :=
  ∃ text kvs, respond i = .ok text ∧
    jloads (AIAgent.stripFences (pyStrip text)) = some (.obj kvs) ∧
    jget "action" kvs .null = .str "use_tool"

theorem runLoop_toolUse (fs : FS) (jloads : JLoads)
    (respond : Nat → Except String String) :
    ∀ (n i : Nat) (iters : List AIAgent.IterRec), AIAgent.maxIterations - i = n →
    (∀ j, i ≤ j → j < AIAgent.maxIterations → parsesToToolUse jloads respond j) →
    ∃ tail, AIAgent.runLoop fs jloads respond i iters =
      (.exhausted (iters ++ tail) AIAgent.maxIterations, n) ∧ tail.length = n := by
  intro n
  induction n with
  | zero =>
    intro i iters hn _
    refine ⟨[], ?_, rfl⟩
    rw [AIAgent.runLoop]
    rw [dif_neg (by omega)]
    simp
  | succ n ih =>
    intro i iters hn hall
    have hi : i < AIAgent.maxIterations := by omega
    obtain ⟨text, kvs, hresp, hparse, hact⟩ := hall i le_rfl hi
    have hne : pyEq (Json.str "use_tool") (Json.str "answer") = false := by
      simp [pyEq_str_str]
    obtain ⟨tail, htail, hlen⟩ := ih (i + 1)
      (iters ++ [⟨i + 1, jget "tool" kvs .null, jget "parameters" kvs (.obj []),
        (AIAgent.execute_tool fs jloads (jget "tool" kvs .null)
          (jget "parameters" kvs (.obj []))).1⟩])
      (by omega) (fun j hj hj3 => hall j (by omega) hj3)
    refine ⟨⟨i + 1, jget "tool" kvs .null, jget "parameters" kvs (.obj []),
        (AIAgent.execute_tool fs jloads (jget "tool" kvs .null)
          (jget "parameters" kvs (.obj []))).1⟩ :: tail, ?_, by simp [hlen]⟩
    rw [AIAgent.runLoop]
    rw [dif_pos hi]
    simp only [hresp, hparse, hact, hne, Bool.false_eq_true, if_false]
    rw [if_pos (by simp [pyEq_str_str])]
    rw [htail]
    simp

/-- Claim C1: with `max_iterations = 3`, a run whose every (successful and
parsed) model response requests tool use makes exactly 3 model invocations
(in particular at most 3) and terminates with the exhausted summary and
`total_iterations = 3`; a run whose first response parses to an `answer`
action makes exactly 1 invocation and terminates answered with
`total_iterations = 1`. -/
theorem C1_iteration_budget (fs : FS) (jloads : JLoads) :
    (∀ (respond : Nat → Except String String),
      (∀ j, j < AIAgent.maxIterations → parsesToToolUse jloads respond j) →
      ∃ iters, AIAgent.run fs jloads respond =
        (.exhausted iters AIAgent.maxIterations, 3) ∧ iters.length = 3) ∧
    (∀ (respond : Nat → Except String String) (text : String) (kvs : List (String × Json)),
      respond 0 = .ok text →
      jloads (AIAgent.stripFences (pyStrip text)) = some (.obj kvs) →
      jget "action" kvs .null = .str "answer" →
      AIAgent.run fs jloads respond =
        (.answered [] (jget "response" kvs .null) 1, 1)) := by
  constructor
  · intro respond hall
    obtain ⟨tail, h, hlen⟩ := runLoop_toolUse fs jloads respond 3 0 [] rfl
      (fun j _ hj3 => hall j hj3)
    exact ⟨tail, by simpa [AIAgent.run] using h, hlen⟩
  · intro respond text kvs hresp hparse hact
    unfold AIAgent.run
    rw [AIAgent.runLoop]
    rw [dif_pos (by decide)]
    simp only [hresp, hparse, hact]
    rw [if_pos (by simp [pyEq_str_str])]

def c1toolJL : JLoads := fun _ =>
  some (.obj [("action", .str "use_tool"), ("tool", .str "x"), ("parameters", .obj [])])

def c1answerJL : JLoads := fun _ =>
  some (.obj [("action", .str "answer"), ("response", .str "done")])

theorem C1_iteration_budget_witness :
    (∃ iters, AIAgent.run witnessFS c1toolJL (fun _ => .ok "t") =
      (.exhausted iters AIAgent.maxIterations, 3) ∧ iters.length = 3) ∧
    AIAgent.run witnessFS c1answerJL (fun _ => .ok "t") =
      (.answered [] (.str "done") 1, 1) := by
  constructor
  · exact (C1_iteration_budget witnessFS c1toolJL).1 _
      (fun j _ => ⟨"t", _, rfl, rfl, rfl⟩)
  · exact (C1_iteration_budget witnessFS c1answerJL).2 (fun _ => .ok "t") "t"
      [("action", .str "answer"), ("response", .str "done")] rfl rfl rfl

/-- The raw model response used for the C3 counterexample: a fenced block
whose content is not parseable structured data. -/
def c3text : String := "```json\nhello world\n```"

/-- Counterexample to claim C3 as stated: with the response
`"```json\nhello world\n```"` (no extraction strategy yields parseable
structured data, since the block's content `"hello world"` is not JSON),
the run terminates `Answered` — but with `final_answer` equal to the
*extracted fence content*, not the raw response text, contradicting the
claim's "final_answer equal to the raw response text". -/
theorem C3_counterexample :
    (AIAgent.run witnessFS (fun _ => none) (fun _ => .ok c3text)).1 =
      .answered [] (.str "hello world") 1 ∧
    (AIAgent.run witnessFS (fun _ => none) (fun _ => .ok c3text)).1 ≠
      .answered [] (.str c3text) 1 := by
  have hs : AIAgent.stripFences (pyStrip c3text) = "hello world" := by decide
  have h : AIAgent.run witnessFS (fun _ => none) (fun _ => .ok c3text) =
      (.answered [] (.str "hello world") 1, 1) := by
    unfold AIAgent.run
    rw [AIAgent.runLoop]
    rw [dif_pos (by decide)]
    simp [hs]
  refine ⟨by rw [h], by rw [h]; intro hc; injection hc with h1 h2; injection h2 with h3; revert h3; decide⟩

/-- Claim C3 (amended): on each iteration the agent tries, in order, (a) a
fenced ```json block, then (b) — only when backticks occur at all — any
fenced block; the first match's trimmed content replaces the (stripped)
response text, and there is no further regex scan for an embedded `action`
object.  The resulting text is then parsed; if parsing fails the run
terminates `Answered` with `final_answer` equal to that extracted/stripped
text and `total_iterations = iteration + 1` — a parse failure is never
reported as an error and never fails the run. -/
theorem C3_parse_fallback_amended (fs : FS) (jloads : JLoads) :
    (∀ s g, AIAgent.fencedJsonBlock s = some g → AIAgent.stripFences s = g) ∧
    (∀ s g, AIAgent.fencedJsonBlock s = none → strContains s "```" = true →
      AIAgent.fencedAnyBlock s = some g → AIAgent.stripFences s = g) ∧
    (∀ s, AIAgent.fencedJsonBlock s = none → strContains s "```" = false →
      AIAgent.stripFences s = s) ∧
    (∀ (respond : Nat → Except String String) (i : Nat) (iters : List AIAgent.IterRec)
        (text : String),
      i < AIAgent.maxIterations →
      respond i = .ok text →
      jloads (AIAgent.stripFences (pyStrip text)) = none →
      AIAgent.runLoop fs jloads respond i iters =
        (.answered iters (.str (AIAgent.stripFences (pyStrip text))) (i + 1), 1)) := by
  refine ⟨?_, ?_, ?_, ?_⟩
  · intro s g h
    simp [AIAgent.stripFences, h]
  · intro s g h1 h2 h3
    simp [AIAgent.stripFences, h1, h2, h3]
  · intro s h1 h2
    simp [AIAgent.stripFences, h1, h2]
  · intro respond i iters text hi hresp hparse
    rw [AIAgent.runLoop]
    rw [dif_pos hi]
    simp [hresp, hparse]

theorem C3_parse_fallback_amended_witness :
    AIAgent.run witnessFS (fun _ => none) (fun _ => .ok "plain prose, no fences") =
      (.answered [] (.str "plain prose, no fences") 1, 1) := by
  have hs : AIAgent.stripFences (pyStrip "plain prose, no fences") =
      "plain prose, no fences" := by decide
  have h := (C3_parse_fallback_amended witnessFS (fun _ => none)).2.2.2
    (fun _ => .ok "plain prose, no fences") 0 [] "plain prose, no fences"
    (by decide) rfl rfl
  unfold AIAgent.run
  rw [h, hs]

theorem hasKey_obj {k : String} {j : Json} (h : hasKey k j = true) : ∃ kvs, j = .obj kvs := by
  cases j <;> simp [hasKey] at h ⊢

/-- Claim C2: every public engine operation, for every input (and every
filesystem/parser behaviour), returns a mapping containing either success
data or an `error` entry.  "Never raises" is expressed by totality: each
operation is a total function whose internal exceptions live in `Except`
and are caught by the operation's own `try/except` translation. -/
theorem C2_ops_return_result_mapping (fs : FS) (jloads : JLoads) :
    (∀ platform, resultShaped (AnalysisTools.get_consolidated_data fs jloads platform)) ∧
    (∀ platform, resultShaped (AnalysisTools.get_media_summary fs jloads platform)) ∧
    (∀ query platform limit,
      resultShaped (AnalysisTools.search_media_content fs jloads query platform limit)) ∧
    (∀ directory, resultShaped (AnalysisTools.list_json_files fs directory)) ∧
    (∀ filename, resultShaped (AnalysisTools.read_json_file fs jloads filename)) ∧
    (∀ data keywords case_sensitive,
      resultShaped (AnalysisTools.keyword_search data keywords case_sensitive)) ∧
    (∀ data filters, resultShaped (AnalysisTools.filter_json data filters)) ∧
    (∀ data field operation,
      resultShaped (AnalysisTools.aggregate_data data field operation)) ∧
    (∀ data, resultShaped (AnalysisTools.extract_hashtags data)) ∧
    (∀ file1 file2, resultShaped (AnalysisTools.compare_files fs jloads file1 file2)) := by
  refine ⟨?_, ?_, ?_, ?_, ?_, ?_, ?_, ?_, ?_, ?_⟩
  · intro platform
    unfold AnalysisTools.get_consolidated_data
    repeat' split
    all_goals exact ⟨⟨_, rfl⟩, by simp [errObj, hasKey, jlookup]⟩
  · intro platform
    unfold AnalysisTools.get_media_summary
    repeat' split
    all_goals exact ⟨⟨_, rfl⟩, by simp [errObj, hasKey, jlookup]⟩
  · intro query platform limit
    unfold AnalysisTools.search_media_content
    try dsimp only
    split
    · next h =>
      obtain ⟨kvs, hk⟩ := hasKey_obj h
      exact ⟨⟨kvs, hk⟩, by simp [h]⟩
    · repeat' split
      all_goals exact ⟨⟨_, rfl⟩, by simp [errObj, hasKey, jlookup]⟩
  · intro directory
    unfold AnalysisTools.list_json_files
    repeat' split
    all_goals exact ⟨⟨_, rfl⟩, by simp [errObj, hasKey, jlookup]⟩
  · intro filename
    unfold AnalysisTools.read_json_file
    try dsimp only
    repeat' split
    all_goals exact ⟨⟨_, rfl⟩, by simp [errObj, hasKey, jlookup]⟩
  · intro data keywords case_sensitive
    unfold AnalysisTools.keyword_search
    try dsimp only
    repeat' split
    all_goals exact ⟨⟨_, rfl⟩, by simp [errObj, hasKey, jlookup]⟩
  · intro data filters
    unfold AnalysisTools.filter_json
    try dsimp only
    repeat' split
    all_goals exact ⟨⟨_, rfl⟩, by simp [errObj, hasKey, jlookup]⟩
  · intro data field operation
    unfold AnalysisTools.aggregate_data
    try dsimp only
    repeat' split
    all_goals exact ⟨⟨_, rfl⟩, by simp [errObj, hasKey, jlookup]⟩
  · intro data
    unfold AnalysisTools.extract_hashtags
    exact ⟨⟨_, rfl⟩, by simp [hasKey, jlookup]⟩
  · intro file1 file2
    unfold AnalysisTools.compare_files
    repeat' split
    all_goals exact ⟨⟨_, rfl⟩, by simp [errObj, hasKey, jlookup]⟩

def Json.isObj : Json → Bool
  | .obj _ => true
  | _ => false

mutual
/-- Spec side: all mapping-typed subtrees of a document, in pre-order (a
node before its descendants), written independently of `filter_recursive`. -/
def dictSubtrees : Json → List Json
  | .obj kvs => .obj kvs :: dictSubtreesKVs kvs
  | .arr xs => dictSubtreesList xs
  | _ => []

def dictSubtreesKVs : List (String × Json) → List Json
  | [] => []
  | (_, v) :: rest => dictSubtrees v ++ dictSubtreesKVs rest

def dictSubtreesList : List Json → List Json
  | [] => []
  | x :: rest => dictSubtrees x ++ dictSubtreesList rest
end

/-- Spec side: a mapping node in which every filter key is present with an
equal (Python equality) value. -/
def eqMatches (fl : List (String × Json)) (j : Json) : Bool :=
  match j with
  | .obj kvs => fl.all (fun kv =>
      match jlookup kv.1 kvs with
      | some w => pyEq w kv.2
      | none => false)
  | _ => false

theorem checkFilters_eq_only (fl : List (String × Json))
    (hfl : ∀ kv ∈ fl, Json.isObj kv.2 = false) (kvs : List (String × Json)) :
    AnalysisTools.checkFilters fl kvs = .ok (eqMatches fl (.obj kvs)) := by
  induction fl with
  | nil => simp [AnalysisTools.checkFilters, eqMatches]
  | cons kv rest ih =>
    obtain ⟨key, value⟩ := kv
    have hv : Json.isObj value = false := hfl (key, value) (by simp)
    have hrest := ih (fun kv hkv => hfl kv (by simp [hkv]))
    rw [AnalysisTools.checkFilters]
    cases hl : jlookup key kvs with
    | none => simp [eqMatches, hl]
    | some w =>
      simp only [eqMatches, List.all_cons, hl]
      cases value
      case obj okvs => simp [Json.isObj] at hv
      all_goals dsimp only
      all_goals rw [hrest]
      all_goals split
      all_goals rename_i hpe
      all_goals try simp only [Bool.not_eq_true] at hpe
      all_goals simp [hpe, eqMatches]

theorem filterKVs_fusion (fl : List (String × Json))
    (kvs : List (String × Json))
    (ih : ∀ kv ∈ kvs, AnalysisTools.filterRec fl kv.2 =
      .ok ((dictSubtrees kv.2).filter (eqMatches fl))) :
    AnalysisTools.filterKVs fl kvs = .ok ((dictSubtreesKVs kvs).filter (eqMatches fl)) := by
  induction kvs with
  | nil => simp [AnalysisTools.filterKVs, dictSubtreesKVs]
  | cons kv rest ihr =>
    obtain ⟨k, v⟩ := kv
    rw [AnalysisTools.filterKVs]
    rw [ih (k, v) (by simp), ihr (fun kv hkv => ih kv (by simp [hkv]))]
    simp [dictSubtreesKVs, bind, Except.bind, pure, Except.pure]

theorem filterList_fusion (fl : List (String × Json))
    (xs : List Json)
    (ih : ∀ x ∈ xs, AnalysisTools.filterRec fl x =
      .ok ((dictSubtrees x).filter (eqMatches fl))) :
    AnalysisTools.filterList fl xs = .ok ((dictSubtreesList xs).filter (eqMatches fl)) := by
  induction xs with
  | nil => simp [AnalysisTools.filterList, dictSubtreesList]
  | cons x rest ihr =>
    rw [AnalysisTools.filterList]
    rw [ih x (by simp), ihr (fun y hy => ih y (by simp [hy]))]
    simp [dictSubtreesList, bind, Except.bind, pure, Except.pure]

theorem filterRec_fusion (fl : List (String × Json))
    (hfl : ∀ kv ∈ fl, Json.isObj kv.2 = false) :
    ∀ j, AnalysisTools.filterRec fl j = .ok ((dictSubtrees j).filter (eqMatches fl)) := by
  intro j
  induction j using Json.recOn_mem with
  | hnull => simp [AnalysisTools.filterRec, dictSubtrees]
  | hbool b => simp [AnalysisTools.filterRec, dictSubtrees]
  | hnum q => simp [AnalysisTools.filterRec, dictSubtrees]
  | hstr s => simp [AnalysisTools.filterRec, dictSubtrees]
  | harr xs ih =>
    rw [AnalysisTools.filterRec]
    rw [filterList_fusion fl xs ih]
    simp [dictSubtrees]
  | hobj kvs ih =>
    rw [AnalysisTools.filterRec]
    rw [checkFilters_eq_only fl hfl kvs, filterKVs_fusion fl kvs ih]
    simp only [dictSubtrees, List.filter_cons, bind, Except.bind, pure, Except.pure]
    by_cases hm : eqMatches fl (.obj kvs) = true <;> simp [hm]

/-- Claim C5: for filters consisting only of literal equality clauses,
`filter_json(D, F)` returns exactly the mapping-typed subtrees of `D` (every
mapping node, at any depth, in pre-order — a matching node is not excluded
from further recursion, so a parent and one of its children can both
appear) in which every key of `F` is present with a value equal to `F`'s
value. -/
theorem C5_filter_json_equality (data : Json) (fl : List (String × Json))
    (hfl : ∀ kv ∈ fl, Json.isObj kv.2 = false) :
    AnalysisTools.filter_json data (.obj fl) =
      .obj [("success", .bool true), ("filters_applied", .obj fl),
        ("matches_found", .num ((dictSubtrees data).filter (eqMatches fl)).length),
        ("results", .arr ((dictSubtrees data).filter (eqMatches fl)))] := by
  unfold AnalysisTools.filter_json
  rw [show (do
      let fl' ← AnalysisTools.asObjItems (Json.obj fl)
      AnalysisTools.filterRec fl' data : Except String (List Json)) =
    AnalysisTools.filterRec fl data from rfl]
  rw [filterRec_fusion fl hfl data]

theorem pyEq_num_num (a b : ℚ) : pyEq (.num a) (.num b) = decide (a = b) := by
  simp [pyEq, toNumQ]

theorem C5_filter_json_equality_witness :
    AnalysisTools.filter_json
        (.obj [("a", .num 1), ("child", .obj [("a", .num 1)])])
        (.obj [("a", .num 1)]) =
      .obj [("success", .bool true), ("filters_applied", .obj [("a", .num 1)]),
        ("matches_found", .num 2),
        ("results", .arr [.obj [("a", .num 1), ("child", .obj [("a", .num 1)])],
          .obj [("a", .num 1)]])] := by
  have h := C5_filter_json_equality
    (.obj [("a", .num 1), ("child", .obj [("a", .num 1)])]) [("a", .num 1)]
    (by simp [Json.isObj])
  rw [h]
  simp [dictSubtrees, dictSubtreesKVs, dictSubtreesList, eqMatches, jlookup, pyEq_num_num]

mutual
/-- Spec side: the searchable string sites of a document — every mapping
key, and every string leaf value (a mapping's string value, a sequence
element, or the root itself), in traversal order. -/
def siteStrings : Json → List String
  | .str s => [s]
  | .arr xs => siteStringsList xs
  | .obj kvs => siteStringsKVs kvs
  | _ => []

def siteStringsKVs : List (String × Json) → List String
  | [] => []
  | (k, v) :: rest => k :: (siteStrings v ++ siteStringsKVs rest)

def siteStringsList : List Json → List String
  | [] => []
  | x :: rest => siteStrings x ++ siteStringsList rest
end

/-- The string actually compared: lowered unless the search is
case-sensitive. -/
def cmpForm (cs : Bool) (s : String) : String := if cs then s else pyLower s

/-- Spec side: how many keywords of `ws` occur (as substrings, under the
case regime `cs`) in the site string `site`. -/
def kwHits (cs : Bool) (ws : List String) (site : String) : Nat :=
  (ws.filter (fun w => strContains (cmpForm cs site) (cmpForm cs w))).length

/-- Spec side: the total number of (site, keyword) containment pairs. -/
def totalHits (cs : Bool) (ws : List String) (j : Json) : Nat :=
  ((siteStrings j).map (kwHits cs ws)).sum

theorem kwAsStr_str (cs : Bool) (w : String) :
    AnalysisTools.kwAsStr cs (.str w) = .ok (cmpForm cs w) := by
  cases cs <;> simp [AnalysisTools.kwAsStr, cmpForm]

theorem kwKeyRecs_count (cs : Bool) (path key : String) (value : Json) (ws : List String) :
    ∃ recs, AnalysisTools.kwKeyRecs cs path key value (ws.map .str) = .ok recs ∧
      recs.length = kwHits cs ws key := by
  induction ws with
  | nil => exact ⟨[], by simp [AnalysisTools.kwKeyRecs], by simp [kwHits]⟩
  | cons w rest ih =>
    obtain ⟨recs, hr, hl⟩ := ih
    rw [List.map_cons, AnalysisTools.kwKeyRecs.eq_def]
    dsimp only
    rw [kwAsStr_str]
    simp only [bind, Except.bind, hr, pure, Except.pure]
    refine ⟨_, rfl, ?_⟩
    rw [show (if cs = true then key else pyLower key) = cmpForm cs key from rfl]
    simp only [kwHits, List.filter_cons] at hl ⊢
    by_cases hw : strContains (cmpForm cs key) (cmpForm cs w) = true <;>
      simp [hw, hl] <;> omega

theorem kwStrRecs_count (cs : Bool) (path : String) (key? : Option String) (s : String)
    (ws : List String) :
    ∃ recs, AnalysisTools.kwStrRecs cs path key? s (ws.map .str) = .ok recs ∧
      recs.length = kwHits cs ws s := by
  induction ws with
  | nil => exact ⟨[], by simp [AnalysisTools.kwStrRecs], by simp [kwHits]⟩
  | cons w rest ih =>
    obtain ⟨recs, hr, hl⟩ := ih
    rw [List.map_cons, AnalysisTools.kwStrRecs.eq_def]
    dsimp only
    rw [kwAsStr_str]
    simp only [bind, Except.bind, hr, pure, Except.pure]
    refine ⟨_, rfl, ?_⟩
    rw [show (if cs = true then s else pyLower s) = cmpForm cs s from rfl]
    simp only [kwHits, List.filter_cons] at hl ⊢
    by_cases hw : strContains (cmpForm cs s) (cmpForm cs w) = true <;>
      simp [hw, hl] <;> omega

theorem totalHits_str (cs : Bool) (ws : List String) (s : String) :
    totalHits cs ws (.str s) = kwHits cs ws s := by
  simp [totalHits, siteStrings]

theorem searchKVs_count (ws : List String) (cs : Bool) (kvs : List (String × Json))
    (path : String)
    (ih : ∀ kv ∈ kvs, ∀ path', ∃ recs,
      AnalysisTools.searchRec (.arr (ws.map .str)) cs kv.2 path' = .ok recs ∧
        recs.length = totalHits cs ws kv.2) :
    ∃ recs, AnalysisTools.searchKVs (.arr (ws.map .str)) cs kvs path = .ok recs ∧
      recs.length = ((siteStringsKVs kvs).map (kwHits cs ws)).sum := by
  induction kvs generalizing path with
  | nil => exact ⟨[], by simp [AnalysisTools.searchKVs], by simp [siteStringsKVs]⟩
  | cons kv rest ihr =>
    obtain ⟨k, v⟩ := kv
    obtain ⟨keyRecs, hk, hkl⟩ := kwKeyRecs_count cs (path ++ "." ++ k) k v ws
    obtain ⟨tailRecs, ht, htl⟩ := ihr path (fun kv hkv => ih kv (by simp [hkv]))
    rw [AnalysisTools.searchKVs]
    cases v
    case str s =>
      obtain ⟨valRecs, hv, hvl⟩ := kwStrRecs_count cs (path ++ "." ++ k) (some k) s ws
      dsimp only
      simp only [jIterE, bind, Except.bind, hk, hv, ht, pure, Except.pure]
      refine ⟨_, rfl, ?_⟩
      simp [siteStringsKVs, siteStrings, hkl, hvl, htl]
      try omega
    all_goals obtain ⟨valRecs, hv, hvl⟩ := ih _ (List.mem_cons_self _ _) (path ++ "." ++ k)
    all_goals dsimp only at hv hvl
    all_goals dsimp only
    all_goals simp only [jIterE, bind, Except.bind, hk, hv, ht, pure, Except.pure]
    all_goals refine ⟨_, rfl, ?_⟩
    all_goals simp [siteStringsKVs, siteStrings, totalHits, hkl, hvl, htl]
    all_goals try omega

theorem searchList_count (ws : List String) (cs : Bool) (xs : List Json)
    (path : String) (i : Nat)
    (ih : ∀ x ∈ xs, ∀ path', ∃ recs,
      AnalysisTools.searchRec (.arr (ws.map .str)) cs x path' = .ok recs ∧
        recs.length = totalHits cs ws x) :
    ∃ recs, AnalysisTools.searchList (.arr (ws.map .str)) cs xs path i = .ok recs ∧
      recs.length = ((siteStringsList xs).map (kwHits cs ws)).sum := by
  induction xs generalizing path i with
  | nil => exact ⟨[], by simp [AnalysisTools.searchList], by simp [siteStringsList]⟩
  | cons x rest ihr =>
    obtain ⟨headRecs, hh, hhl⟩ := ih x (by simp) (path ++ "[" ++ toString i ++ "]")
    obtain ⟨tailRecs, ht, htl⟩ := ihr path (i + 1) (fun y hy => ih y (by simp [hy]))
    rw [AnalysisTools.searchList]
    simp only [bind, Except.bind, hh, ht, pure, Except.pure]
    refine ⟨_, rfl, ?_⟩
    simp [siteStringsList, hhl, htl, totalHits]

theorem searchRec_count (ws : List String) (cs : Bool) :
    ∀ (j : Json) (path : String), ∃ recs,
      AnalysisTools.searchRec (.arr (ws.map .str)) cs j path = .ok recs ∧
        recs.length = totalHits cs ws j := by
  intro j
  induction j using Json.recOn_mem with
  | hnull => exact fun path => ⟨[], by simp [AnalysisTools.searchRec], by simp [totalHits, siteStrings]⟩
  | hbool b => exact fun path => ⟨[], by simp [AnalysisTools.searchRec], by simp [totalHits, siteStrings]⟩
  | hnum q => exact fun path => ⟨[], by simp [AnalysisTools.searchRec], by simp [totalHits, siteStrings]⟩
  | hstr s =>
    intro path
    obtain ⟨recs, hr, hl⟩ := kwStrRecs_count cs path none s ws
    exact ⟨recs, by rw [AnalysisTools.searchRec]; simpa [jIterE, bind, Except.bind] using hr,
      by rw [hl, totalHits_str]⟩
  | harr xs ih =>
    intro path
    obtain ⟨recs, hr, hl⟩ := searchList_count ws cs xs path 0 ih
    exact ⟨recs, by rw [AnalysisTools.searchRec]; exact hr, by simpa [totalHits, siteStrings] using hl⟩
  | hobj kvs ih =>
    intro path
    obtain ⟨recs, hr, hl⟩ := searchKVs_count ws cs kvs path ih
    exact ⟨recs, by rw [AnalysisTools.searchRec]; exact hr, by simpa [totalHits, siteStrings] using hl⟩

/-- Claim C6: `keyword_search(D, K)` (case regime per the `case_sensitive`
toggle, case-insensitive by default) returns one match record for every
(site, keyword) pair in which a member of `K` occurs as a substring of a
string-valued mapping key or of a string leaf value of `D` (multiple
occurrences inside one string are reported in that record's
`match_count`), and returns zero matches when no string key or string
value of `D` contains any member of `K`. -/
theorem C6_keyword_search_matches (D : Json) (ws : List String) (case_sensitive : Json) :
    ∃ recs,
      AnalysisTools.keyword_search D (.arr (ws.map .str)) case_sensitive =
        .obj [("success", .bool true), ("keywords", .arr (ws.map .str)),
          ("total_matches", .num (totalHits (pyTruthy case_sensitive) ws D)),
          ("matches", .arr recs)] ∧
      recs.length = totalHits (pyTruthy case_sensitive) ws D ∧
      (totalHits (pyTruthy case_sensitive) ws D = 0 → recs = []) := by
  obtain ⟨recs, hr, hl⟩ := searchRec_count ws (pyTruthy case_sensitive) D "root"
  refine ⟨recs, ?_, hl, ?_⟩
  · unfold AnalysisTools.keyword_search
    dsimp only
    rw [hr]
    dsimp only
    rw [hl]
  · intro h0
    rw [h0] at hl
    exact List.length_eq_zero.mp hl

theorem C6_keyword_search_matches_witness :
    ∃ recs,
      AnalysisTools.keyword_search (.obj [("caption", .str "Hello World")])
          (.arr [.str "world"]) (.bool false) =
        .obj [("success", .bool true), ("keywords", .arr [.str "world"]),
          ("total_matches", .num 1), ("matches", .arr recs)] ∧
      recs.length = 1 := by
  have h := C6_keyword_search_matches (.obj [("caption", .str "Hello World")])
    ["world"] (.bool false)
  have ht : totalHits (pyTruthy (.bool false)) ["world"]
      (.obj [("caption", .str "Hello World")]) = 1 := by
    rw [show pyTruthy (.bool false) = false from rfl]
    rw [totalHits]
    rw [show siteStrings (.obj [("caption", .str "Hello World")]) =
      ["caption", "Hello World"] from by
        rw [siteStrings, siteStringsKVs, siteStrings, siteStringsKVs]; rfl]
    simp only [List.map_cons, List.map_nil, List.sum_cons, List.sum_nil]
    have h1 : kwHits false ["world"] "caption" = 0 := by decide
    have h2 : kwHits false ["world"] "Hello World" = 1 := by decide
    omega
  rw [ht] at h
  obtain ⟨recs, h1, h2, _⟩ := h
  exact ⟨recs, by simpa using h1, h2⟩

/-- A step of a tree path: a dict entry (by position) or a list element. -/
inductive PathStep where
  | ent (i : Nat) : PathStep
  | itm (i : Nat) : PathStep
deriving DecidableEq

mutual
/-- Spec side: every binding of the field anywhere in the tree — the path
of each dict entry whose key equals `f` (by entry/element position),
together with the bound value, in traversal order, recursing into bound
values too. -/
def bindingPaths (f : String) : Json → List (List PathStep × Json)
  | .obj kvs => bpKVs f 0 kvs
  | .arr xs => bpList f 0 xs
  | _ => []

def bpKVs (f : String) : Nat → List (String × Json) → List (List PathStep × Json)
  | _, [] => []
  | i, (k, v) :: rest =>
    ((if k = f then [([PathStep.ent i], v)] else []) ++
      (bindingPaths f v).map (fun q => (PathStep.ent i :: q.1, q.2))) ++
    bpKVs f (i + 1) rest

def bpList (f : String) : Nat → List Json → List (List PathStep × Json)
  | _, [] => []
  | i, x :: rest =>
    (bindingPaths f x).map (fun q => (PathStep.itm i :: q.1, q.2)) ++ bpList f (i + 1) rest
end

/-- `p` is not strictly below any binding path of `L`. -/
def isOut (L : List (List PathStep × Json)) (p : List PathStep) : Bool :=
  !(L.any fun q => q.1.isPrefixOf p && !(decide (q.1 = p)))

/-- Spec side: the values of the outermost bindings of `f` — those bindings
not nested inside another value bound to `f`. -/
def outermostBound (f : String) (D : Json) : List Json :=
  ((bindingPaths f D).filter (fun q => isOut (bindingPaths f D) q.1)).map Prod.snd

/-- Spec side: the values of all bindings of `f`, nested ones included. -/
def allBoundValues (f : String) (D : Json) : List Json :=
  (bindingPaths f D).map Prod.snd

theorem bpKVs_shape (f : String) :
    ∀ (kvs : List (String × Json)) (i : Nat), ∀ pw ∈ bpKVs f i kvs,
      ∃ j t, i ≤ j ∧ pw.1 = PathStep.ent j :: t := by
  intro kvs
  induction kvs with
  | nil => intro i pw h; simp [bpKVs] at h
  | cons kv rest ih =>
    obtain ⟨k, v⟩ := kv
    intro i pw h
    rw [bpKVs] at h
    simp only [List.mem_append] at h
    rcases h with (h | h) | h
    · by_cases hk : k = f
      · simp only [hk, if_pos, List.mem_singleton] at h
        exact ⟨i, [], le_rfl, by simp [h]⟩
      · simp [hk] at h
    · simp only [List.mem_map] at h
      obtain ⟨q, _, hq⟩ := h
      exact ⟨i, q.1, le_rfl, by rw [← hq]⟩
    · obtain ⟨j, t, hj, ht⟩ := ih (i + 1) pw h
      exact ⟨j, t, by omega, ht⟩

theorem bpList_shape (f : String) :
    ∀ (xs : List Json) (i : Nat), ∀ pw ∈ bpList f i xs,
      ∃ j t, i ≤ j ∧ pw.1 = PathStep.itm j :: t := by
  intro xs
  induction xs with
  | nil => intro i pw h; simp [bpList] at h
  | cons x rest ih =>
    intro i pw h
    rw [bpList] at h
    simp only [List.mem_append, List.mem_map] at h
    rcases h with h | h
    · obtain ⟨q, _, hq⟩ := h
      exact ⟨i, q.1, le_rfl, by rw [← hq]⟩
    · obtain ⟨j, t, hj, ht⟩ := ih (i + 1) pw h
      exact ⟨j, t, by omega, ht⟩

theorem bindingPaths_ne_nil (f : String) (j : Json) :
    ∀ pw ∈ bindingPaths f j, pw.1 ≠ [] := by
  intro pw h
  match j with
  | .obj kvs =>
    rw [bindingPaths] at h
    obtain ⟨_, _, _, ht⟩ := bpKVs_shape f kvs 0 pw h
    simp [ht]
  | .arr xs =>
    rw [bindingPaths] at h
    obtain ⟨_, _, _, ht⟩ := bpList_shape f xs 0 pw h
    simp [ht]
  | .null => simp [bindingPaths] at h
  | .bool _ => simp [bindingPaths] at h
  | .num _ => simp [bindingPaths] at h
  | .str _ => simp [bindingPaths] at h

theorem isPre_cons (a b : PathStep) (as bs : List PathStep) :
    (a :: as).isPrefixOf (b :: bs) = (decide (a = b) && as.isPrefixOf bs) := by
  simp [List.isPrefixOf, BEq.beq]

theorem any_congr_mem {α : Type} {p q : α → Bool} (l : List α) (h : ∀ a ∈ l, p a = q a) :
    l.any p = l.any q := by
  induction l with
  | nil => rfl
  | cons a rest ih =>
    simp only [List.any_cons, h a (by simp), ih (fun b hb => h b (by simp [hb]))]

theorem isOut_append (L1 L2 : List (List PathStep × Json)) (p : List PathStep) :
    isOut (L1 ++ L2) p = (isOut L1 p && isOut L2 p) := by
  simp [isOut, List.any_append]

theorem isOut_of_head_ne (L : List (List PathStep × Json)) (s : PathStep) (p : List PathStep)
    (h : ∀ q ∈ L, ∃ s' t, q.1 = s' :: t ∧ s' ≠ s) : isOut L (s :: p) = true := by
  simp only [isOut, Bool.not_eq_true', List.any_eq_false]
  intro q hq
  obtain ⟨s', t, hq1, hne⟩ := h q hq
  rw [hq1, isPre_cons]
  simp [hne]

theorem isOut_map_cons (L : List (List PathStep × Json)) (s : PathStep) (p : List PathStep) :
    isOut (L.map (fun q => (s :: q.1, q.2))) (s :: p) = isOut L p := by
  simp only [isOut, List.any_map]
  congr 1
  apply any_congr_mem
  intro q _
  simp only [Function.comp]
  rw [isPre_cons]
  simp

theorem isOut_map_cons_single (L : List (List PathStep × Json)) (s : PathStep)
    (h : ∀ q ∈ L, q.1 ≠ []) :
    isOut (L.map (fun q => (s :: q.1, q.2))) [s] = true := by
  simp only [isOut, Bool.not_eq_true', List.any_eq_false]
  intro q hq
  simp only [List.mem_map] at hq
  obtain ⟨q', hq', rfl⟩ := hq
  rw [show ([s] : List PathStep) = s :: [] from rfl, isPre_cons]
  have := h q' hq'
  cases hq1 : q'.1 with
  | nil => exact absurd hq1 this
  | cons a t => simp [List.isPrefixOf]

theorem isOut_single_self (s : PathStep) (v : Json) : isOut [([s], v)] [s] = true := by
  simp [isOut]

theorem isOut_single_cons (s : PathStep) (v : Json) (p : List PathStep) (hp : p ≠ []) :
    isOut [([s], v)] (s :: p) = false := by
  simp only [isOut, List.any_cons, List.any_nil]
  rw [show (s :: p) = s :: p from rfl]
  rw [isPre_cons]
  simp [List.isPrefixOf, hp]

theorem isOut_nil (p : List PathStep) : isOut [] p = true := by simp [isOut]

theorem aggKVs_outermost (f : String) :
    ∀ (kvs : List (String × Json)),
    (∀ kv ∈ kvs, AnalysisTools.aggExtract (.str f) kv.2 =
      ((bindingPaths f kv.2).filter (fun q => isOut (bindingPaths f kv.2) q.1)).map Prod.snd) →
    ∀ i, AnalysisTools.aggExtractKVs (.str f) kvs =
      ((bpKVs f i kvs).filter (fun q => isOut (bpKVs f i kvs) q.1)).map Prod.snd := by
  intro kvs
  induction kvs with
  | nil => intro _ i; simp [AnalysisTools.aggExtractKVs, bpKVs]
  | cons kv rest ihr =>
    intro ih i
    obtain ⟨k, v⟩ := kv
    have hv := ih (k, v) (by simp)
    have hrest := ihr (fun kv hkv => ih kv (by simp [hkv])) (i + 1)
    have hCne : ∀ q ∈ bpKVs f (i + 1) rest, ∃ s' t, q.1 = s' :: t ∧ s' ≠ PathStep.ent i := by
      intro q hq
      obtain ⟨j, t, hj, ht⟩ := bpKVs_shape f rest (i + 1) q hq
      exact ⟨PathStep.ent j, t, ht, by simp only [ne_eq, PathStep.ent.injEq]; omega⟩
    have hLne : ∀ q ∈ bindingPaths f v, q.1 ≠ [] := bindingPaths_ne_nil f v
    rw [AnalysisTools.aggExtractKVs, bpKVs]
    by_cases hk : k = f
    · rw [if_pos hk, if_pos (by simp [pyEq_str_str, hk])]
      rw [List.filter_append, List.filter_append]
      have hPA : (List.filter
          (fun q => isOut ((([([PathStep.ent i], v)] ++
            (bindingPaths f v).map (fun q => (PathStep.ent i :: q.1, q.2))) ++
            bpKVs f (i + 1) rest)) q.1) [([PathStep.ent i], v)]) = [([PathStep.ent i], v)] := by
        rw [List.filter_cons]
        rw [if_pos ?hcond]
        · simp
        case hcond =>
          show (isOut _ [PathStep.ent i]) = true
          rw [isOut_append, isOut_append]
          rw [isOut_single_self, isOut_map_cons_single _ _ hLne,
            isOut_of_head_ne _ _ _ hCne]
          rfl
      have hPB : (List.filter
          (fun q => isOut ((([([PathStep.ent i], v)] ++
            (bindingPaths f v).map (fun q => (PathStep.ent i :: q.1, q.2))) ++
            bpKVs f (i + 1) rest)) q.1)
          ((bindingPaths f v).map (fun q => (PathStep.ent i :: q.1, q.2)))) = [] := by
        rw [List.filter_eq_nil]
        intro q hq
        simp only [List.mem_map] at hq
        obtain ⟨q', hq', rfl⟩ := hq
        rw [isOut_append, isOut_append]
        rw [isOut_single_cons _ _ _ (hLne q' hq')]
        simp
      have hPC : (List.filter
          (fun q => isOut ((([([PathStep.ent i], v)] ++
            (bindingPaths f v).map (fun q => (PathStep.ent i :: q.1, q.2))) ++
            bpKVs f (i + 1) rest)) q.1) (bpKVs f (i + 1) rest)) =
          List.filter (fun q => isOut (bpKVs f (i + 1) rest) q.1) (bpKVs f (i + 1) rest) := by
        apply List.filter_congr
        intro q hq
        obtain ⟨j, t, hj, ht⟩ := bpKVs_shape f rest (i + 1) q hq
        rw [isOut_append, isOut_append, ht]
        rw [isOut_of_head_ne _ _ _ (by
          intro r hr
          simp only [List.mem_singleton] at hr
          exact ⟨PathStep.ent i, [], by rw [hr], by
            simp only [ne_eq, PathStep.ent.injEq]; omega⟩)]
        rw [isOut_of_head_ne _ _ _ (by
          intro r hr
          simp only [List.mem_map] at hr
          obtain ⟨r', _, rfl⟩ := hr
          exact ⟨PathStep.ent i, r'.1, rfl, by
            simp only [ne_eq, PathStep.ent.injEq]; omega⟩)]
        simp
      rw [hPA, hPB, hPC]
      rw [List.map_append, List.map_append]
      rw [← hrest]
      simp
    · rw [if_neg hk, if_neg (by simp [pyEq_str_str, hk])]
      simp only [List.nil_append]
      rw [List.filter_append]
      have hPB : (List.filter
          (fun q => isOut (((bindingPaths f v).map (fun q => (PathStep.ent i :: q.1, q.2))) ++
            bpKVs f (i + 1) rest) q.1)
          ((bindingPaths f v).map (fun q => (PathStep.ent i :: q.1, q.2)))) =
          ((bindingPaths f v).filter
            (fun q => isOut (bindingPaths f v) q.1)).map (fun q => (PathStep.ent i :: q.1, q.2)) := by
        rw [List.filter_map]
        congr 1
        apply List.filter_congr
        intro q' _
        simp only [Function.comp]
        rw [isOut_append]
        rw [isOut_map_cons]
        rw [isOut_of_head_ne _ _ _ hCne]
        simp
      have hPC : (List.filter
          (fun q => isOut (((bindingPaths f v).map (fun q => (PathStep.ent i :: q.1, q.2))) ++
            bpKVs f (i + 1) rest) q.1) (bpKVs f (i + 1) rest)) =
          List.filter (fun q => isOut (bpKVs f (i + 1) rest) q.1) (bpKVs f (i + 1) rest) := by
        apply List.filter_congr
        intro q hq
        obtain ⟨j, t, hj, ht⟩ := bpKVs_shape f rest (i + 1) q hq
        rw [isOut_append, ht]
        rw [isOut_of_head_ne _ _ _ (by
          intro r hr
          simp only [List.mem_map] at hr
          obtain ⟨r', _, rfl⟩ := hr
          exact ⟨PathStep.ent i, r'.1, rfl, by
            simp only [ne_eq, PathStep.ent.injEq]; omega⟩)]
        simp
      rw [hPB, hPC]
      rw [List.map_append]
      rw [← hrest, hv]
      simp [List.map_map]

theorem aggList_outermost (f : String) :
    ∀ (xs : List Json),
    (∀ x ∈ xs, AnalysisTools.aggExtract (.str f) x =
      ((bindingPaths f x).filter (fun q => isOut (bindingPaths f x) q.1)).map Prod.snd) →
    ∀ i, AnalysisTools.aggExtractList (.str f) xs =
      ((bpList f i xs).filter (fun q => isOut (bpList f i xs) q.1)).map Prod.snd := by
  intro xs
  induction xs with
  | nil => intro _ i; simp [AnalysisTools.aggExtractList, bpList]
  | cons x rest ihr =>
    intro ih i
    have hx := ih x (by simp)
    have hrest := ihr (fun y hy => ih y (by simp [hy])) (i + 1)
    have hCne : ∀ q ∈ bpList f (i + 1) rest, ∃ s' t, q.1 = s' :: t ∧ s' ≠ PathStep.itm i := by
      intro q hq
      obtain ⟨j, t, hj, ht⟩ := bpList_shape f rest (i + 1) q hq
      exact ⟨PathStep.itm j, t, ht, by simp only [ne_eq, PathStep.itm.injEq]; omega⟩
    rw [AnalysisTools.aggExtractList, bpList]
    rw [List.filter_append]
    have hPB : (List.filter
        (fun q => isOut (((bindingPaths f x).map (fun q => (PathStep.itm i :: q.1, q.2))) ++
          bpList f (i + 1) rest) q.1)
        ((bindingPaths f x).map (fun q => (PathStep.itm i :: q.1, q.2)))) =
        ((bindingPaths f x).filter
          (fun q => isOut (bindingPaths f x) q.1)).map (fun q => (PathStep.itm i :: q.1, q.2)) := by
      rw [List.filter_map]
      congr 1
      apply List.filter_congr
      intro q' _
      simp only [Function.comp]
      rw [isOut_append, isOut_map_cons, isOut_of_head_ne _ _ _ hCne]
      simp
    have hPC : (List.filter
        (fun q => isOut (((bindingPaths f x).map (fun q => (PathStep.itm i :: q.1, q.2))) ++
          bpList f (i + 1) rest) q.1) (bpList f (i + 1) rest)) =
        List.filter (fun q => isOut (bpList f (i + 1) rest) q.1) (bpList f (i + 1) rest) := by
      apply List.filter_congr
      intro q hq
      obtain ⟨j, t, hj, ht⟩ := bpList_shape f rest (i + 1) q hq
      rw [isOut_append, ht]
      rw [isOut_of_head_ne _ _ _ (by
        intro r hr
        simp only [List.mem_map] at hr
        obtain ⟨r', _, rfl⟩ := hr
        exact ⟨PathStep.itm i, r'.1, rfl, by
          simp only [ne_eq, PathStep.itm.injEq]; omega⟩)]
      simp
    rw [hPB, hPC]
    rw [List.map_append]
    rw [← hrest, hx]
    simp [List.map_map]

/-- `extract_values` collects exactly the outermost bindings of the field:
occurrences nested inside a value that is itself bound to the field are
not collected. -/
theorem aggExtract_eq_outermost (f : String) :
    ∀ D, AnalysisTools.aggExtract (.str f) D = outermostBound f D := by
  intro D
  induction D using Json.recOn_mem with
  | hnull => simp [AnalysisTools.aggExtract, outermostBound, bindingPaths]
  | hbool b => simp [AnalysisTools.aggExtract, outermostBound, bindingPaths]
  | hnum q => simp [AnalysisTools.aggExtract, outermostBound, bindingPaths]
  | hstr s => simp [AnalysisTools.aggExtract, outermostBound, bindingPaths]
  | harr xs ih =>
    rw [AnalysisTools.aggExtract, outermostBound, bindingPaths]
    exact aggList_outermost f xs (fun x hx => ih x hx) 0
  | hobj kvs ih =>
    rw [AnalysisTools.aggExtract, outermostBound, bindingPaths]
    exact aggKVs_outermost f kvs (fun kv hkv => ih kv hkv) 0

/-- Claim C10: `aggregate_data` never recurses into a value bound to the
requested field — `extract_values` collects exactly the outermost bindings
(occurrences nested inside a value bound to the field are skipped), and
consequently the whole aggregation result depends only on the outermost
bindings: documents with the same outermost bindings aggregate
identically, whatever is nested inside those values. -/
theorem C10_outermost_bindings_only (f : String) :
    (∀ D, AnalysisTools.aggExtract (.str f) D = outermostBound f D) ∧
    (∀ (D D' : Json) (operation : Json), outermostBound f D = outermostBound f D' →
      AnalysisTools.aggregate_data D (.str f) operation =
        AnalysisTools.aggregate_data D' (.str f) operation) := by
  refine ⟨aggExtract_eq_outermost f, ?_⟩
  intro D D' operation h
  unfold AnalysisTools.aggregate_data
  rw [show AnalysisTools.aggExtract (.str f) D = AnalysisTools.aggExtract (.str f) D' from by
    rw [aggExtract_eq_outermost f D, aggExtract_eq_outermost f D', h]]

theorem C10_outermost_bindings_only_witness :
    AnalysisTools.aggregate_data (.obj [("f", .obj [("f", .num 5)])]) (.str "f") (.str "count") =
      AnalysisTools.aggregate_data (.arr [.obj [("f", .obj [("f", .num 5)])]])
        (.str "f") (.str "count") := by
  apply (C10_outermost_bindings_only "f").2
  simp [outermostBound, bindingPaths, bpKVs, bpList, isOut, List.isPrefixOf]

/-- Spec side: the direct sum of all numeric values bound to `f` anywhere
in `D` (nested occurrences included), per the claim's wording. -/
def allNumericSum (f : String) (D : Json) : ℚ :=
  (((allBoundValues f D).filter pyIsNum).map (fun v => (toNumQ v).getD 0)).sum

theorem countInto_ok_of_hashable (l : List Json) (h : ∀ v ∈ l, isHashable v = true) :
    ∀ acc, ∃ groups, countInto acc l = .ok groups := by
  induction l with
  | nil => exact fun acc => ⟨acc, rfl⟩
  | cons v rest ih =>
    intro acc
    rw [countInto]
    rw [if_pos (h v (by simp))]
    exact ih (fun w hw => h w (by simp [hw])) _

theorem countInto_error_of_unhashable (l : List Json) (h : ∃ v ∈ l, isHashable v = false) :
    ∀ acc, ∃ e, countInto acc l = .error e := by
  induction l with
  | nil => simp at h
  | cons v rest ih =>
    intro acc
    rw [countInto]
    by_cases hv : isHashable v = true
    · rw [if_pos hv]
      refine ih ?_ _
      obtain ⟨w, hw, hwu⟩ := h
      rcases List.mem_cons.mp hw with rfl | hw'
      · rw [hv] at hwu; cases hwu
      · exact ⟨w, hw', hwu⟩
    · rw [if_neg hv]
      exact ⟨_, rfl⟩

/-- Counterexample to claim C4 as stated: at `D = {"f": {"f": 5}}` the field
`f` is bound twice (once to `{"f": 5}` and, nested inside it, once to `5`),
so the claim predicts `count = 2` and `sum = 5`; the code instead collects
only the outer binding (a dict), so `count` raises `TypeError` inside
`Counter` and yields an error mapping, and `sum` finds no numeric values
and yields an error mapping. -/
theorem C4_counterexample :
    (allBoundValues "f" (.obj [("f", .obj [("f", .num 5)])])).length = 2 ∧
    allNumericSum "f" (.obj [("f", .obj [("f", .num 5)])]) = 5 ∧
    AnalysisTools.aggregate_data (.obj [("f", .obj [("f", .num 5)])]) (.str "f")
      (.str "count") = errObj "unhashable type: 'dict'" ∧
    AnalysisTools.aggregate_data (.obj [("f", .obj [("f", .num 5)])]) (.str "f")
      (.str "sum") = errObj "No numeric values found for field 'f'" := by
  refine ⟨?_, ?_, ?_, ?_⟩
  · simp [allBoundValues, bindingPaths, bpKVs, bpList]
  · simp [allNumericSum, allBoundValues, bindingPaths, bpKVs, bpList, pyIsNum, toNumQ]
  · unfold AnalysisTools.aggregate_data
    rw [if_pos (by simp [pyEq_str_str])]
    rw [show AnalysisTools.aggExtract (.str "f") (.obj [("f", .obj [("f", .num 5)])]) =
      [.obj [("f", .num 5)]] from by
        simp [AnalysisTools.aggExtract, AnalysisTools.aggExtractKVs, pyEq_str_str]]
    rw [show countByValue [Json.obj [("f", .num 5)]] =
      .error "unhashable type: 'dict'" from by
        simp [countByValue, countInto, isHashable, pyTypeName]]
  · unfold AnalysisTools.aggregate_data
    rw [if_neg (by simp [pyEq_str_str])]
    rw [if_pos (by simp [pyEq_str_str])]
    rw [show AnalysisTools.aggExtract (.str "f") (.obj [("f", .obj [("f", .num 5)])]) =
      [.obj [("f", .num 5)]] from by
        simp [AnalysisTools.aggExtract, AnalysisTools.aggExtractKVs, pyEq_str_str]]
    simp [pyIsNum, toNumQ, pyStr, pyRepr]

/-- Claim C4 (amended): `aggregate_data(D, f, "sum")` returns a result equal
to the direct sum of the numeric values (numbers and booleans, per the host
language's `isinstance`) bound to `f` at *outermost* occurrences — those
not nested inside another value bound to `f` — and errors when there are
none; `aggregate_data(D, f, "count")` returns a result equal to the number
of outermost occurrences regardless of the values' types *provided* every
collected value is hashable (not a mapping or sequence), and errors
otherwise. -/
theorem C4_aggregate_sum_count_amended (f : String) (D : Json) :
    ((outermostBound f D).filter pyIsNum ≠ [] →
      AnalysisTools.aggregate_data D (.str f) (.str "sum") =
        .obj [("success", .bool true), ("field", .str f), ("operation", .str "sum"),
          ("total_values", .num (outermostBound f D).length),
          ("result", .num (((outermostBound f D).filter pyIsNum).map
            (fun v => (toNumQ v).getD 0)).sum),
          ("numeric_values_count", .num ((outermostBound f D).filter pyIsNum).length)]) ∧
    ((outermostBound f D).filter pyIsNum = [] →
      AnalysisTools.aggregate_data D (.str f) (.str "sum") =
        errObj ("No numeric values found for field '" ++ f ++ "'")) ∧
    ((∀ v ∈ outermostBound f D, isHashable v = true) →
      ∃ vcs, AnalysisTools.aggregate_data D (.str f) (.str "count") =
        .obj [("success", .bool true), ("field", .str f), ("operation", .str "count"),
          ("total_values", .num (outermostBound f D).length),
          ("result", .num (outermostBound f D).length),
          ("value_counts", .obj vcs)]) ∧
    ((∃ v ∈ outermostBound f D, isHashable v = false) →
      ∃ e, AnalysisTools.aggregate_data D (.str f) (.str "count") = errObj e) := by
  refine ⟨?_, ?_, ?_, ?_⟩
  · intro hne
    unfold AnalysisTools.aggregate_data
    rw [if_neg (by simp [pyEq_str_str])]
    rw [if_pos (by simp [pyEq_str_str])]
    rw [aggExtract_eq_outermost f D]
    dsimp only
    cases hn : (outermostBound f D).filter pyIsNum with
    | nil => exact absurd hn hne
    | cons x rest =>
      dsimp only
      rw [if_pos (by simp [pyEq_str_str])]
      simp [pyStr]
  · intro hnil
    unfold AnalysisTools.aggregate_data
    rw [if_neg (by simp [pyEq_str_str])]
    rw [if_pos (by simp [pyEq_str_str])]
    rw [aggExtract_eq_outermost f D]
    try dsimp only
    rw [hnil]
    simp [pyStr]
  · intro hh
    obtain ⟨groups, hg⟩ := countInto_ok_of_hashable _ hh []
    unfold AnalysisTools.aggregate_data
    rw [if_pos (by simp [pyEq_str_str])]
    rw [aggExtract_eq_outermost f D]
    try dsimp only
    rw [show countByValue (outermostBound f D) = .ok groups from hg]
    exact ⟨groups.map (fun vc => (pyStr vc.1, Json.num vc.2)), by simp⟩
  · intro hu
    obtain ⟨e, he⟩ := countInto_error_of_unhashable _ hu []
    unfold AnalysisTools.aggregate_data
    rw [if_pos (by simp [pyEq_str_str])]
    rw [aggExtract_eq_outermost f D]
    try dsimp only
    rw [show countByValue (outermostBound f D) = .error e from he]
    exact ⟨e, rfl⟩

theorem C4_aggregate_sum_count_amended_witness :
    AnalysisTools.aggregate_data
        (.obj [("a", .obj [("views", .num 10)]), ("b", .obj [("views", .num 20)])])
        (.str "views") (.str "sum") =
      .obj [("success", .bool true), ("field", .str "views"), ("operation", .str "sum"),
        ("total_values", .num 2), ("result", .num 30), ("numeric_values_count", .num 2)] := by
  have ho : outermostBound "views"
      (.obj [("a", .obj [("views", .num 10)]), ("b", .obj [("views", .num 20)])]) =
      [.num 10, .num 20] := by
    simp [outermostBound, bindingPaths, bpKVs, bpList, isOut, List.isPrefixOf]
  have h := (C4_aggregate_sum_count_amended "views"
    (.obj [("a", .obj [("views", .num 10)]), ("b", .obj [("views", .num 20)])])).1
  rw [ho] at h
  have h2 := h (by simp [pyIsNum, toNumQ])
  simp only [List.filter, pyIsNum, toNumQ, Option.isSome, List.map, Option.getD,
    List.sum_cons, List.sum_nil, List.length_cons, List.length_nil] at h2
  convert h2 using 4 <;> norm_num
